import Mathlib

/-!
# Verification of the SWE-bench data-points validator

A shallow embedding, in Lean 4, of `data_points_validator.py`: the dataset
loader (`DataSetLoader`), the prediction formatter (`PredictionFormatter`),
the Docker harness invoker and the result reconciler
(`DataPointProcessor._run_docker_evaluation`,
`DataPointProcessor._analyze_test_results`), and the batch orchestrator
(`DataPointProcessor.process_validation` / `_process_single_file`).

Python values read from JSON files are embedded as the inductive `JValue`;
Python truthiness, `dict.get`, `json.loads` (on the double-encoded test-list
fields) and `set(...)` equality are embedded as executable Lean functions.
Raised exceptions are embedded as `Except String` errors; code that the
source wraps in `try/except` catches them exactly where the source does.
-/

/-- A JSON value as produced by Python's `json.load`/`json.loads`.
Integer literals are `jnum`; fractional/exponent literals are `jfloat`,
carried as the exact rational the literal denotes (IEEE rounding is not
modelled — no claim compares non-integer numbers).  Objects are association
lists in file order; `json.load` output has unique keys (a later duplicate
overwrites an earlier one during parsing). -/
inductive JValue where
  | jnull
  | jbool (b : Bool)
  | jnum (n : Int)
  | jfloat (q : Rat)
  | jstr (s : String)
  | jarr (elems : List JValue)
  | jobj (fields : List (String × JValue))

open JValue

/-- Look up a key in an embedded Python dict (first match; keys are unique). -/
def lookupField (fields : List (String × JValue)) (key : String) : Option JValue :=
  match fields with
  | [] => none
  | (k, v) :: rest => if k = key then some v else lookupField rest key

/-- Python truthiness (`bool(x)`) for JSON-representable values: `None` and
`False` are falsy, numbers are falsy iff zero, strings/lists/dicts are falsy
iff empty. -/
def pythonTruthy : JValue → Bool
  | jnull => false
  | jbool b => b
  | jnum n => n != 0
  | jfloat q => q != 0
  | jstr s => s ≠ ""
  | jarr xs => !xs.isEmpty
  | jobj fs => !fs.isEmpty

/-- The characters `str.strip()` removes (ASCII whitespace; the validator's
`patch` fields are ASCII diffs, so the further Unicode whitespace accepted by
Python does not arise). -/
def isPySpace (c : Char) : Bool :=
  c = ' ' || c = '\t' || c = '\n' || c = '\x0d' || c = '\x0b' || c = '\x0c'

/-- Python `not s.strip()`: true iff the string contains no non-whitespace character. -/
def stripIsEmpty (s : String) : Bool :=
  s.toList.all isPySpace

/-! ## `DataSetLoader` (the Record Loader) -/

/-- The `mandatory_fields` list of `DataSetLoader._check_data_integrity`. -/
def mandatory_fields : List String :=
  ["instance_id", "repo", "base_commit", "patch", "FAIL_TO_PASS", "PASS_TO_PASS"]

/-- Embedding of `DataSetLoader._check_data_integrity`.  The three checks, in source
order: every mandatory field present; `patch.strip()` non-empty; at least one
of the two raw test-list fields truthy.  A non-string `patch` makes
`patch_content.strip()` raise `AttributeError`, which the caller's generic
`except` turns into exclusion of the record — embedded here as the check
returning `false`, which excludes the record identically. -/
def check_data_integrity (dataset_item : List (String × JValue)) : Bool :=
  mandatory_fields.all (fun f => (lookupField dataset_item f).isSome) &&
  (match (lookupField dataset_item "patch").getD (jstr "") with
   | jstr s => !stripIsEmpty s
   | _ => false) &&
  (pythonTruthy ((lookupField dataset_item "FAIL_TO_PASS").getD (jarr [])) ||
   pythonTruthy ((lookupField dataset_item "PASS_TO_PASS").getD (jarr [])))

/-- What one input file presents to `DataSetLoader._parse_json_file`:
unreadable (`open`/read raised), not parseable as JSON
(`json.JSONDecodeError`), or parsed to a JSON value. -/
inductive FileContent where
  | unreadable (cause : String)
  | invalidJson (cause : String)
  | parsed (v : JValue)

/-- Embedding of `DataSetLoader._parse_json_file`: `None` (here `none`) on a read error, a
JSON parse error, or an integrity-check failure; the parsed record otherwise.
A file whose JSON top level is not an object either fails the membership
test or raises on `.get` — both paths end in `None` under the source's
`except` handlers, embedded as `none`. -/
def parse_json_file : FileContent → Option JValue
  | .unreadable _ => none
  | .invalidJson _ => none
  | .parsed v =>
    match v with
    | jobj fields => if check_data_integrity fields then some (jobj fields) else none
    | _ => none

/-- Embedding of `DataSetLoader.load_datasets`, after file-name resolution: each resolved
file is parsed independently; files yielding `None` are skipped with a
warning, the rest are collected in order. -/
def load_datasets (files : List FileContent) : List JValue :=
  files.filterMap parse_json_file

/-! ## An embedding of `json.loads`

Used by `_analyze_test_results` to parse the double-encoded
`FAIL_TO_PASS`/`PASS_TO_PASS` fields.  The grammar follows Python's `json`
module in strict mode: proper leading-zero rejection, the four whitespace
characters, escape sequences including `\uXXXX` with surrogate-pair
recombination, and literal control characters rejected inside strings.
Two corners of CPython's accepted language are outside the modelled data and
are rejected here rather than represented: the non-standard
`NaN`/`Infinity` literals, and `\u` escapes denoting lone surrogates (which
yield Python strings that are not sequences of Unicode scalar values).
Fractional/exponent number literals are represented exactly as rationals
rather than IEEE doubles; no claim compares parsed numbers. -/

/-- Fuel note: the parser threads a fuel counter only to make recursion
structural; `parseJsonString` supplies fuel larger than the number of parser
steps any input of its length can need. -/
def hexVal (c : Char) : Option Nat :=
  if '0' ≤ c && c ≤ '9' then some (c.toNat - 48)
  else if 'a' ≤ c && c ≤ 'f' then some (c.toNat - 87)
  else if 'A' ≤ c && c ≤ 'F' then some (c.toNat - 55)
  else none

/-- Read exactly four hex digits. -/
def parseHex4 : List Char → Option (Nat × List Char)
  | a :: b :: c :: d :: rest => do
    let x ← hexVal a
    let y ← hexVal b
    let z ← hexVal c
    let w ← hexVal d
    some ((((x * 16 + y) * 16 + z) * 16 + w : Nat), rest)
  | _ => none

/-- JSON inter-token whitespace (`json.decoder.WHITESPACE`). -/
def skipWs : List Char → List Char
  | c :: rest =>
    if c = ' ' || c = '\t' || c = '\n' || c = '\x0d' then skipWs rest else c :: rest
  | [] => []

/-- String-body scanner (`json.decoder.py_scanstring`, strict mode): ends at
an unescaped quote; backslash escapes as in the JSON spec plus `\/`; a
`\uXXXX` high surrogate followed by a `\uXXXX` low surrogate is recombined;
raw control characters are rejected. -/
def parseJStrAux : Nat → List Char → List Char → Option (String × List Char)
  | 0, _, _ => none
  | _, _, [] => none
  | fuel + 1, acc, c :: rest =>
    if c = '"' then some (String.mk acc.reverse, rest)
    else if c = '\\' then
      match rest with
      | [] => none
      | e :: rest2 =>
        if e = '"' then parseJStrAux fuel ('"' :: acc) rest2
        else if e = '\\' then parseJStrAux fuel ('\\' :: acc) rest2
        else if e = '/' then parseJStrAux fuel ('/' :: acc) rest2
        else if e = 'b' then parseJStrAux fuel ('\x08' :: acc) rest2
        else if e = 'f' then parseJStrAux fuel ('\x0c' :: acc) rest2
        else if e = 'n' then parseJStrAux fuel ('\n' :: acc) rest2
        else if e = 'r' then parseJStrAux fuel ('\x0d' :: acc) rest2
        else if e = 't' then parseJStrAux fuel ('\t' :: acc) rest2
        else if e = 'u' then
          match parseHex4 rest2 with
          | none => none
          | some (n, rest3) =>
            if 0xD800 ≤ n && n < 0xDC00 then
              match rest3 with
              | '\\' :: 'u' :: rest4 =>
                match parseHex4 rest4 with
                | some (m, rest5) =>
                  if 0xDC00 ≤ m && m < 0xE000 then
                    parseJStrAux fuel
                      (Char.ofNat (0x10000 + (n - 0xD800) * 0x400 + (m - 0xDC00)) :: acc) rest5
                  else none
                | none => none
              | _ => none
            else if 0xDC00 ≤ n && n < 0xE000 then none
            else parseJStrAux fuel (Char.ofNat n :: acc) rest3
        else none
    else if c.toNat < 0x20 then none
    else parseJStrAux fuel (c :: acc) rest

/-- Maximal run of ASCII digits. -/
def takeDigits : List Char → List Char × List Char
  | [] => ([], [])
  | c :: rest =>
    if c.isDigit then
      let (d, r) := takeDigits rest
      (c :: d, r)
    else ([], c :: rest)

/-- Digit run to a natural number. -/
def digitsToNat (ds : List Char) : Nat :=
  ds.foldl (fun a c => a * 10 + (c.toNat - 48)) 0

/-- Number scanner following `json.scanner.NUMBER_RE`:
`-?(0|[1-9]\d*)(\.\d+)?([eE][-+]?\d+)?`, maximal match; an integer literal
becomes `jnum`, anything with a fraction or exponent becomes the exact
rational `jfloat`. -/
def parseJNumber (s : List Char) : Option (JValue × List Char) :=
  let (neg, s1) := match s with
    | '-' :: r => (true, r)
    | _ => (false, s)
  match s1 with
  | [] => none
  | c :: _ =>
    if !c.isDigit then none
    else
      let (intPart, s2) := takeDigits s1
      if intPart.length > 1 && intPart.headI = '0' then none
      else
        let (fracPart, s3) :=
          match s2 with
          | '.' :: r =>
            match takeDigits r with
            | ([], _) => (([] : List Char), s2)
            | (d, r') => (d, r')
          | _ => (([] : List Char), s2)
        let (expPart, s4) :=
          match s3 with
          | 'e' :: r => expTail r s3
          | 'E' :: r => expTail r s3
          | _ => ((none : Option Int), s3)
        let intVal : Int := (if neg then -1 else 1) * (digitsToNat intPart : Int)
        if fracPart = [] && expPart = none then some (jnum intVal, s4)
        else
          let base : Rat :=
            (intVal : Rat) +
              (if neg then -1 else 1) * (digitsToNat fracPart : Rat) / (10 : Rat) ^ fracPart.length
          let e : Int := expPart.getD 0
          some (jfloat (base * (10 : Rat) ^ e), s4)
where
  /-- Exponent tail after `e`/`E`: optional sign then mandatory digits;
  absent digits mean the exponent marker is not part of the number. -/
  expTail (r fallback : List Char) : Option Int × List Char :=
    let (sgn, r1) := match r with
      | '+' :: r' => ((1 : Int), r')
      | '-' :: r' => ((-1 : Int), r')
      | _ => ((1 : Int), r)
    match takeDigits r1 with
    | ([], _) => (none, fallback)
    | (d, r') => (some (sgn * (digitsToNat d : Int)), r')

mutual

/-- Value scanner: dispatch on the first non-whitespace character. -/
def parseJValueAux : Nat → List Char → Option (JValue × List Char)
  | 0, _ => none
  | fuel + 1, s =>
    match skipWs s with
    | [] => none
    | c :: rest =>
      if c = '"' then
        (parseJStrAux (rest.length + 1) [] rest).map (fun p => (jstr p.1, p.2))
      else if c = '\x7b' then parseJObjAux fuel rest
      else if c = '[' then parseJArrAux fuel rest
      else if ['t', 'r', 'u', 'e'].isPrefixOf (c :: rest) then
        some (jbool true, (c :: rest).drop 4)
      else if ['f', 'a', 'l', 's', 'e'].isPrefixOf (c :: rest) then
        some (jbool false, (c :: rest).drop 5)
      else if ['n', 'u', 'l', 'l'].isPrefixOf (c :: rest) then
        some (jnull, (c :: rest).drop 4)
      else if c = '-' || c.isDigit then parseJNumber (c :: rest)
      else none

/-- Array scanner, called just after `[`. -/
def parseJArrAux (fuel : Nat) (s : List Char) : Option (JValue × List Char) :=
  match fuel with
  | 0 => none
  | fuel + 1 =>
    match skipWs s with
    | ']' :: rest => some (jarr [], rest)
    | s' =>
      match parseJValueAux fuel s' with
      | none => none
      | some (v, rest) =>
        match parseJArrTail fuel [v] rest with
        | none => none
        | some (vs, rest') => some (jarr vs, rest')

/-- Remaining array elements: `,` then a value, or `]`. -/
def parseJArrTail (fuel : Nat) (acc : List JValue) (s : List Char) :
    Option (List JValue × List Char) :=
  match fuel with
  | 0 => none
  | fuel + 1 =>
    match skipWs s with
    | ']' :: rest => some (acc.reverse, rest)
    | ',' :: rest =>
      match parseJValueAux fuel rest with
      | none => none
      | some (v, rest') => parseJArrTail fuel (v :: acc) rest'
    | _ => none

/-- Object scanner, called just after the opening brace. -/
def parseJObjAux (fuel : Nat) (s : List Char) : Option (JValue × List Char) :=
  match fuel with
  | 0 => none
  | fuel + 1 =>
    match skipWs s with
    | '\x7d' :: rest => some (jobj [], rest)
    | s' =>
      match parseJObjTail fuel [] (',' :: s') with
      | none => none
      | some (fs, rest) => some (jobj fs, rest)

/-- Object members: each iteration expects `,` `"key"` `:` value; a closing
brace ends the object.  (The first member's comma is supplied by
`parseJObjAux`.) -/
def parseJObjTail (fuel : Nat) (acc : List (String × JValue)) (s : List Char) :
    Option (List (String × JValue) × List Char) :=
  match fuel with
  | 0 => none
  | fuel + 1 =>
    match s with
    | '\x7d' :: rest => some (acc.reverse, rest)
    | ',' :: rest =>
      match skipWs rest with
      | '"' :: rest1 =>
        match parseJStrAux (rest1.length + 1) [] rest1 with
        | none => none
        | some (k, rest2) =>
          match skipWs rest2 with
          | ':' :: rest3 =>
            match parseJValueAux fuel rest3 with
            | none => none
            | some (v, rest4) =>
              match skipWs rest4 with
              | '\x7d' :: rest5 => some ((acc.reverse ++ [(k, v)]), rest5)
              | ',' :: rest5 => parseJObjTail fuel ((k, v) :: acc) (',' :: rest5)
              | _ => none
          | _ => none
      | _ => none
    | _ => none

end

/-- Embedding of `json.loads` on a Python `str`: parse one JSON document, allowing
leading/trailing whitespace and nothing else.  Errors carry the
`json.JSONDecodeError` flavour of message. -/
def parseJsonString (s : String) : Except String JValue :=
  match parseJValueAux (2 * s.length + 4) s.toList with
  | none => .error "JSONDecodeError: Expecting value"
  | some (v, rest) =>
    if skipWs rest = [] then .ok v else .error "JSONDecodeError: Extra data"

/-- Embedding of `json.loads(x)` itself: only `str` input is accepted (the record fields
the validator passes it); any other operand raises `TypeError`. -/
def pyLoads : JValue → Except String JValue
  | jstr s => parseJsonString s
  | _ => .error "TypeError: the JSON object must be str, bytes or bytearray"

/-! ## Python `set(...)` and `==` on sets

`_analyze_test_results` compares `set(expected) == set(actual)`.  Hashable
primitives are the possible set elements; Python's cross-type numeric
equality (`True == 1`, `1 == 1.0`) is respected.  A set is embedded as the
list of the collected elements, compared by mutual membership (which is
exactly Python set equality, and is insensitive to duplicates). -/

/-- A hashable JSON-representable Python value. -/
inductive Prim where
  | pNull
  | pBool (b : Bool)
  | pInt (n : Int)
  | pFloat (q : Rat)
  | pStr (s : String)
deriving DecidableEq

/-- Numeric view used by Python `==` across `bool`/`int`/`float`. -/
def primNumVal : Prim → Option Rat
  | .pBool b => some (if b then 1 else 0)
  | .pInt n => some (n : Rat)
  | .pFloat q => some q
  | _ => none

/-- Python `==` on hashable primitives. -/
def pyPrimEq (a b : Prim) : Bool :=
  match primNumVal a, primNumVal b with
  | some x, some y => x = y
  | _, _ =>
    match a, b with
    | .pNull, .pNull => true
    | .pStr s, .pStr t => s = t
    | _, _ => false

/-- Python `in` for a set materialized as a list of elements. -/
def pyMem (x : Prim) (l : List Prim) : Bool :=
  l.any (pyPrimEq x)

/-- Python `==` between two sets: mutual membership. -/
def pySetEq (a b : List Prim) : Bool :=
  a.all (pyMem · b) && b.all (pyMem · a)

/-- Hash one iterated element for set insertion: primitives hash, lists and
dicts raise `TypeError`. -/
def pyHash : JValue → Except String Prim
  | jnull => .ok .pNull
  | jbool b => .ok (.pBool b)
  | jnum n => .ok (.pInt n)
  | jfloat q => .ok (.pFloat q)
  | jstr s => .ok (.pStr s)
  | jarr _ => .error "TypeError: unhashable type: list"
  | jobj _ => .error "TypeError: unhashable type: dict"

/-- Hash every element of an iterated list, left to right. -/
def pyHashElems : List JValue → Except String (List Prim)
  | [] => .ok []
  | v :: rest =>
    match pyHash v with
    | .error e => .error e
    | .ok p =>
      match pyHashElems rest with
      | .error e => .error e
      | .ok ps => .ok (p :: ps)

/-- Python `set(x)`: iterate `x` and hash each element.  Iterating a string
yields its characters (as one-character strings), iterating a dict yields its
keys; non-iterables and unhashable elements raise `TypeError`. -/
def pySet : JValue → Except String (List Prim)
  | jarr xs => pyHashElems xs
  | jstr s => .ok (s.toList.map fun c => .pStr (String.mk [c]))
  | jobj fs => .ok (fs.map fun f => .pStr f.1)
  | _ => .error "TypeError: object is not iterable"

/-! ## Embedded `dict` access raising as Python does -/

/-- Indexing `v[key]` on an embedded value: `KeyError` when the key is absent,
`TypeError` when `v` is not a dict (the validator only ever indexes dicts
read from JSON). -/
def pyIndex (v : JValue) (key : String) : Except String JValue :=
  match v with
  | jobj fs =>
    match lookupField fs key with
    | some x => .ok x
    | none => .error ("KeyError: " ++ key)
  | _ => .error "TypeError: value is not subscriptable"

/-- Lookup `v.get(key, default)` with a string key: `AttributeError` when `v` is
not a dict. -/
def pyDictGet (v : JValue) (key : String) (dflt : JValue) : Except String JValue :=
  match v with
  | jobj fs => .ok ((lookupField fs key).getD dflt)
  | _ => .error "AttributeError: object has no attribute get"

/-- Lookup `v.get(key, default)` where the key is itself an embedded value (the
record's `instance_id` is used as the report key).  JSON object keys are
strings, so a non-string hashable key simply misses and yields the default;
an unhashable key raises `TypeError`. -/
def pyDictGetKey (v : JValue) (key : JValue) (dflt : JValue) : Except String JValue :=
  match v with
  | jobj fs =>
    match key with
    | jstr s => .ok ((lookupField fs s).getD dflt)
    | jarr _ => .error "TypeError: unhashable type: list"
    | jobj _ => .error "TypeError: unhashable type: dict"
    | _ => .ok dflt
  | _ => .error "AttributeError: object has no attribute get"

/-! ## `DataPointProcessor._analyze_test_results` (the Result Reconciler) -/

/-- The dict returned on the reconciliation path (source lines 369–378),
with the raw values the source returns alongside the verdict. -/
structure TestAnalysis where
  validation_status : String
  problem_resolved : JValue
  failing_tests_match : Bool
  passing_tests_match : Bool
  expected_failing_tests : JValue
  actual_failing_tests : JValue
  expected_passing_tests : JValue
  actual_passing_tests : JValue

/-- The three non-raising returns of `_analyze_test_results`: the
`report_not_found` dict, the `read_error` dict (from the `except` around the
report handling), and the full analysis dict. -/
inductive AnalysisOutcome where
  | reportNotFound (error : String)
  | readError (error : String)
  | analyzed (t : TestAnalysis)

/-- State of the report file at the derived path
`logs_directory / instance_id / report.json`. -/
inductive ReportFile where
  | absent
  | unreadable (cause : String)
  | parsed (v : JValue)

/-- The body of the `try` block (source lines 350–378) once the report has
been read and parsed: look up the record's entry (missing entry defaults to
`{}`), drill into `tests_status`, compare the expected and observed sets,
and read `resolved` (default `False`).  Any raise inside this region is an
`Except.error` here, which the surrounding handler converts to `read_error`. -/
def analyzeReport (iid eF eP : JValue) (rep : JValue) : Except String TestAnalysis :=
  match pyDictGetKey rep iid (jobj []) with
  | .error e => .error e
  | .ok instData =>
    match pyDictGet instData "tests_status" (jobj []) with
    | .error e => .error e
    | .ok testStatuses =>
      match pyDictGet testStatuses "FAIL_TO_PASS" (jobj []) with
      | .error e => .error e
      | .ok ftpObj =>
        match pyDictGet ftpObj "success" (jarr []) with
        | .error e => .error e
        | .ok aF =>
          match pyDictGet testStatuses "PASS_TO_PASS" (jobj []) with
          | .error e => .error e
          | .ok ptpObj =>
            match pyDictGet ptpObj "success" (jarr []) with
            | .error e => .error e
            | .ok aP =>
              match pySet eF with
              | .error e => .error e
              | .ok sEF =>
                match pySet aF with
                | .error e => .error e
                | .ok sAF =>
                  let failing_tests_match := pySetEq sEF sAF
                  match pySet eP with
                  | .error e => .error e
                  | .ok sEP =>
                    match pySet aP with
                    | .error e => .error e
                    | .ok sAP =>
                      let passing_tests_match := pySetEq sEP sAP
                      match pyDictGet instData "resolved" (jbool false) with
                      | .error e => .error e
                      | .ok problem_resolved =>
                        .ok
                          { validation_status :=
                              if failing_tests_match && passing_tests_match &&
                                  pythonTruthy problem_resolved then
                                "success"
                              else "test_mismatch"
                            problem_resolved := problem_resolved
                            failing_tests_match := failing_tests_match
                            passing_tests_match := passing_tests_match
                            expected_failing_tests := eF
                            actual_failing_tests := aF
                            expected_passing_tests := eP
                            actual_passing_tests := aP }

/-- Embedding of `DataPointProcessor._analyze_test_results`.  The two `json.loads` calls
on the record's fields happen before the `try` block, so their exceptions
(and a `KeyError` on a field access) propagate to the caller — embedded as
`Except.error`.  After them, a missing report file returns the
`report_not_found` dict, a read/parse failure of the report (or any raise in
the guarded region) returns the `read_error` dict. -/
def analyze_test_results (dataset_entry : JValue) (report_file : ReportFile) :
    Except String AnalysisOutcome :=
  match pyIndex dataset_entry "instance_id" with
  | .error e => .error e
  | .ok iid =>
    match pyIndex dataset_entry "FAIL_TO_PASS" with
    | .error e => .error e
    | .ok rawF =>
      match pyLoads rawF with
      | .error e => .error e
      | .ok eF =>
        match pyIndex dataset_entry "PASS_TO_PASS" with
        | .error e => .error e
        | .ok rawP =>
          match pyLoads rawP with
          | .error e => .error e
          | .ok eP =>
            match report_file with
            | .absent => .ok (.reportNotFound "report.json does not exist")
            | .unreadable cause => .ok (.readError cause)
            | .parsed rep =>
              match analyzeReport iid eF eP rep with
              | .error e => .ok (.readError e)
              | .ok t => .ok (.analyzed t)

/-! ## `PredictionFormatter` (the Submission Formatter) -/

/-- One prediction dict
`{"instance_id": ..., "model_name_or_path": ..., "model_patch": ...}`. -/
structure PredictionEntry where
  instance_id : JValue
  model_name_or_path : JValue
  model_patch : JValue

/-- Embedding of `PredictionFormatter._transform_single_item`: `.get` with default `None`;
a falsy `instance_id` or `patch` drops the record (`ok none`); `.get` on a
non-dict raises (`error`), escaping the formatter as in the source. -/
def _transform_single_item (ai_model : String) (dataset_item : JValue) :
    Except String (Option PredictionEntry) :=
  match dataset_item with
  | jobj fs =>
    let item_id := (lookupField fs "instance_id").getD jnull
    let patch_data := (lookupField fs "patch").getD jnull
    if !pythonTruthy item_id || !pythonTruthy patch_data then .ok none
    else .ok (some { instance_id := item_id
                     model_name_or_path := jstr ai_model
                     model_patch := patch_data })
  | _ => .error "AttributeError: object has no attribute get"

/-- Embedding of `PredictionFormatter.transform_to_predictions`: each item converted
independently; dropped items only bump the failure counter. -/
def transform_to_predictions (ai_model : String) :
    List JValue → Except String (List PredictionEntry)
  | [] => .ok []
  | item :: rest =>
    match _transform_single_item ai_model item with
    | .error e => .error e
    | .ok none => transform_to_predictions ai_model rest
    | .ok (some p) =>
      match transform_to_predictions ai_model rest with
      | .error e => .error e
      | .ok ps => .ok (p :: ps)

/-! ### `json.dumps` and the submission file

`write_predictions_file` writes `json.dumps(entry) + '\n'` per entry.  The
serializer below is CPython's `json.dumps` with its defaults
(`ensure_ascii=True`, separators `", "`/`": "`, insertion key order) for the
flat three-string-field dict the formatter produces; serialization of dicts
with non-string values is not modelled (§3 fixes the record fields the
formatter copies as strings). -/

/-- Lowercase hex digit, as in `'\x7bu:04x\x7d'.format` used by the encoder. -/
def hexDigitChar (d : Nat) : Char :=
  if d < 10 then Char.ofNat (48 + d) else Char.ofNat (87 + d)

/-- Four lowercase hex digits of `n < 0x10000`. -/
def hex4Chars (n : Nat) : List Char :=
  [hexDigitChar (n / 4096 % 16), hexDigitChar (n / 256 % 16),
   hexDigitChar (n / 16 % 16), hexDigitChar (n % 16)]

/-- Embedding of `py_encode_basestring_ascii`, per character: the two-character escapes
for quote, backslash and the five named control characters; `\uXXXX` for the
other control characters and everything above `0x7E` (a supplementary-plane
character becomes a surrogate pair); printable ASCII passes through. -/
def jsonEscapeChar (c : Char) : List Char :=
  if c = '"' then ['\\', '"']
  else if c = '\\' then ['\\', '\\']
  else if c = '\x08' then ['\\', 'b']
  else if c = '\t' then ['\\', 't']
  else if c = '\n' then ['\\', 'n']
  else if c = '\x0c' then ['\\', 'f']
  else if c = '\x0d' then ['\\', 'r']
  else if c.toNat < 0x20 then '\\' :: 'u' :: hex4Chars c.toNat
  else if c.toNat ≤ 0x7E then [c]
  else if c.toNat < 0x10000 then '\\' :: 'u' :: hex4Chars c.toNat
  else
    ('\\' :: 'u' :: hex4Chars (0xD800 + (c.toNat - 0x10000) / 0x400)) ++
    ('\\' :: 'u' :: hex4Chars (0xDC00 + (c.toNat - 0x10000) % 0x400))

/-- Escape a whole string body. -/
def jsonEscapeString (s : List Char) : List Char :=
  (s.map jsonEscapeChar).flatten

/-- Embedding of `json.dumps` of one prediction dict, as the list of characters written
to the submission file. -/
def dumpsPrediction (p : PredictionEntry) : Option (List Char) :=
  match p.instance_id, p.model_name_or_path, p.model_patch with
  | jstr i, jstr m, jstr pt =>
    some ("\x7b\"instance_id\": \"".toList ++ jsonEscapeString i.toList ++
          "\", \"model_name_or_path\": \"".toList ++ jsonEscapeString m.toList ++
          "\", \"model_patch\": \"".toList ++ jsonEscapeString pt.toList ++
          "\"\x7d".toList)
  | _, _, _ => none

/-- Embedding of `PredictionFormatter.write_predictions_file`, successful-write path: the
full contents of the destination file, one serialized entry plus `'\n'` per
prediction, in input order.  (The failure path — destination unwritable —
returns `False` in the source and is modelled by `FileEnv.writeOk` in the
orchestrator below.) -/
def write_predictions_file (preds : List PredictionEntry) : Option (List Char) :=
  (preds.mapM dumpsPrediction).map fun ls => (ls.map (· ++ ['\n'])).flatten

/-- Split file contents at `'\n'` (every segment, including a final empty
segment when the file ends with a newline). -/
def splitNl : List Char → List (List Char)
  | [] => [[]]
  | c :: rest =>
    if c = '\n' then [] :: splitNl rest
    else
      match splitNl rest with
      | [] => [[c]]
      | l :: ls => (c :: l) :: ls

/-- Reading a newline-terminated file line by line: the final empty segment
after the last newline is not a line. -/
def dropFinalEmpty : List (List Char) → List (List Char)
  | [] => []
  | [l] => if l.isEmpty then [] else [l]
  | l :: ls => l :: dropFinalEmpty ls

/-- The lines of a file's contents. -/
def readLines (contents : List Char) : List (List Char) :=
  dropFinalEmpty (splitNl contents)

/-! ## `DataPointProcessor._run_docker_evaluation` (the Harness Invoker) -/

/-- Whether `subprocess.run` can launch the child at all.  A failed launch
raises an `OSError` subclass whose `str()` is
`[Errno n] strerror: 'filename'`. -/
inductive LaunchOutcome where
  | launches
  | raisesOSError (errno : Nat) (strerror : String) (filename : String)

/-- The externally determined behaviour of one harness invocation. -/
structure ChildBehavior where
  launch : LaunchOutcome
  runSeconds : Nat
  exitCode : Int

/-- Message `str()` of the raised `OSError`. -/
def osErrorStr (errno : Nat) (strerror filename : String) : String :=
  "[Errno " ++ toString errno ++ "] " ++ strerror ++ ": '" ++ filename ++ "'"

/-- What a `subprocess.run` call produced, paired below with whether a child
process is still running afterwards. -/
inductive RunOutcome where
  | completed (returncode : Int)
  | timedOutKilled
  | raisedOnLaunch (msg : String)

/-- Semantics of `subprocess.run(cmd, capture_output=True, text=True, timeout=t)`
(CPython semantics): a launch failure raises with no child; a child that
finishes within the timeout is waited for (reaped — not left running); a
child still alive when the wall-clock timeout elapses is killed and waited
for, and only then is `TimeoutExpired` raised, so no path leaves a child
process running. -/
def subprocess_run (timeoutSecs : Nat) (child : ChildBehavior) : RunOutcome × Bool :=
  match child.launch with
  | .raisesOSError n m fn => (.raisedOnLaunch (osErrorStr n m fn), false)
  | .launches =>
    if timeoutSecs < child.runSeconds then (.timedOutKilled, false)
    else (.completed child.exitCode, false)

/-- The fixed `timeout=1800` (30 minutes) of `_run_docker_evaluation`. -/
def docker_timeout_seconds : Nat := 1800

/-- The dict `_run_docker_evaluation` returns: `success`, plus the `error`
key present exactly on the failure paths. -/
structure DockerResult where
  success : Bool
  error : Option String
deriving DecidableEq

/-- Embedding of `DataPointProcessor._run_docker_evaluation`: zero exit is success;
non-zero exit carries `Exit code: <n>`; `subprocess.TimeoutExpired` is
caught first and carries the fixed reason `Execution timeout exceeded`; any
other exception carries its `str()`.  The second component propagates
whether a child was left running. -/
def _run_docker_evaluation (child : ChildBehavior) : DockerResult × Bool :=
  match subprocess_run docker_timeout_seconds child with
  | (.completed code, running) =>
    if code = 0 then ({ success := true, error := none }, running)
    else ({ success := false, error := some ("Exit code: " ++ toString code) }, running)
  | (.timedOutKilled, running) =>
    ({ success := false, error := some "Execution timeout exceeded" }, running)
  | (.raisedOnLaunch msg, running) =>
    ({ success := false, error := some msg }, running)

/-! ## `DataPointProcessor` orchestration -/

/-- The external state one requested record name resolves to: the record
file's content (or its absence), writability of `predictions_<name>.jsonl`,
the harness child's behaviour, and the state of the report file at
`logs/run_evaluation/<name>/gpt-4/<instance_id>/report.json`. -/
structure FileEnv where
  file : Option FileContent
  writeOk : Bool
  docker : ChildBehavior
  report : ReportFile

/-- The per-file dict of `_process_single_file`: the `success=True` dict
with its payload, or the `success=False` dict with its error message. -/
inductive SingleFileResult where
  | ok (instance_id : JValue) (run_id : String) (validation_analysis : AnalysisOutcome)
  | err (error : String)

/-- Accessor `result.get("success", False)`. -/
def singleFileSuccess : SingleFileResult → Bool
  | .ok _ _ _ => true
  | .err _ => false

/-- Embedding of `DataPointProcessor._process_single_file`: load the one record (a
missing or rejected file loads to `[]`), convert it, write the submission
file, run the harness, then analyze.  Every raise inside the body is caught
by the method's own `except` and becomes the `success=False` dict with the
exception's message. -/
def _process_single_file (filename : String) (env : FileEnv) : SingleFileResult :=
  let loaded := match env.file with
    | none => []
    | some fc => load_datasets [fc]
  match loaded with
  | [] => .err ("Failed to load " ++ filename ++ ".json")
  | dataset_entry :: _ =>
    let entry_instance_id :=
      match dataset_entry with
      | jobj fs => (lookupField fs "instance_id").getD (jstr "unknown")
      | _ => jstr "unknown"
    match transform_to_predictions "gpt-4" [dataset_entry] with
    | .error e => .err e
    | .ok [] => .err "Failed to convert to prediction format"
    | .ok (_ :: _) =>
      if !env.writeOk then .err "Failed to save predictions file"
      else
        let docker_execution_result := (_run_docker_evaluation env.docker).1
        if !docker_execution_result.success then
          .err ("Docker evaluation failed: " ++ docker_execution_result.error.getD "")
        else
          match analyze_test_results dataset_entry env.report with
          | .error e => .err e
          | .ok analysis => .ok entry_instance_id filename analysis

/-- The batch summary dict of `process_validation` (the no-`error` shape).
`success_percentage` is exact rational arithmetic for the source's float
`(success_count / total_processed) * 100`. -/
structure ProcessingSummary where
  total_processed : Nat
  success_count : Nat
  error_count : Nat
  individual_results : List (String × SingleFileResult)
  success_percentage : Rat

/-- Embedding of `DataPointProcessor.process_validation` over already-resolved target
names (for `--files`, the given names; otherwise the glob's stems): an empty
list returns the top-level error dict; otherwise each file is processed and
exactly one of the two counters is bumped per file.  `individual_results`
is keyed by file name in request order (names are distinct in any real
request; a repeated name would collapse in the source's dict but is kept
positionally here, and no claim involves repeated names). -/
def process_validation (target_files : List String) (env : String → FileEnv) :
    Except String ProcessingSummary :=
  if target_files.isEmpty then .error "No files found for processing"
  else
    let results := target_files.map fun f => (f, _process_single_file f (env f))
    let success_count := (results.filter fun r => singleFileSuccess r.2).length
    let error_count := (results.filter fun r => !singleFileSuccess r.2).length
    .ok { total_processed := target_files.length
          success_count := success_count
          error_count := error_count
          individual_results := results
          success_percentage :=
            if target_files.length > 0 then
              (success_count : Rat) / (target_files.length : Rat) * 100
            else 0 }

/-! ## Builders for concrete records and reports, and set-comparison lemmas -/

/-- A record object with the six mandatory fields, string-valued. -/
def mkRecordFields (iid patch ftp ptp : String) : List (String × JValue) :=
  [("instance_id", jstr iid), ("repo", jstr "r"), ("base_commit", jstr "c"),
   ("patch", jstr patch), ("FAIL_TO_PASS", jstr ftp), ("PASS_TO_PASS", jstr ptp)]

/-- A parsed report with one instance entry in the harness's shape. -/
def mkReportContent (iid : String) (resolved : Bool) (aF aP : List String) : JValue :=
  jobj [(iid, jobj
    [("resolved", jbool resolved),
     ("tests_status", jobj
       [("FAIL_TO_PASS", jobj [("success", jarr (aF.map jstr))]),
        ("PASS_TO_PASS", jobj [("success", jarr (aP.map jstr))])])])]

/-- Whether a parse produced a JSON array. -/
def isJsonArray : Except String JValue → Bool
  | .ok (jarr _) => true
  | _ => false

/-- A record whose raw test-list values are an empty array and an empty
string (both Python-falsy). -/
def falsyTestsFields : List (String × JValue) :=
  [("instance_id", jstr "X"), ("repo", jstr "r"), ("base_commit", jstr "c"),
   ("patch", jstr "diff"), ("FAIL_TO_PASS", jarr []), ("PASS_TO_PASS", jstr "")]

/-- An environment in which every requested file is absent. -/
def trivialEnv : String → FileEnv :=
  fun _ => ⟨none, false, ⟨.launches, 0, 0⟩, .absent⟩

/-- The harness child used by the concrete batch scenarios: launches, runs
for a minute, exits 0. -/
def goodChild : ChildBehavior := ⟨.launches, 60, 0⟩

/-- The spec's scenario record `X`. -/
def recXFields : List (String × JValue) := mkRecordFields "X" "diff" "[\"t1\"]" "[]"

/-- Batch environment: `f1`'s record file is missing; `f2` runs through with
a matching, resolved report; `f3` runs through but its report's observed
fail-to-pass success list is `["t2"]`, a mismatch. -/
def envC2 : String → FileEnv := fun f =>
  if f = "f1" then ⟨none, true, goodChild, .absent⟩
  else if f = "f2" then
    ⟨some (.parsed (jobj recXFields)), true, goodChild,
     .parsed (mkReportContent "X" true ["t1"] [])⟩
  else
    ⟨some (.parsed (jobj recXFields)), true, goodChild,
     .parsed (mkReportContent "X" true ["t2"] [])⟩

/-- The batch summary's count triple `(total, successes, errors)`. -/
def summaryCounts : Except String ProcessingSummary → Option (Nat × Nat × Nat)
  | .ok s => some (s.total_processed, s.success_count, s.error_count)
  | .error _ => none

/-- The batch summary's success percentage. -/
def summaryPercentage : Except String ProcessingSummary → Option Rat
  | .ok s => some s.success_percentage
  | .error _ => none

/-- The reconciliation verdict inside a completed per-file result. -/
def resultStatus : SingleFileResult → Option String
  | .ok _ _ (.analyzed t) => some t.validation_status
  | _ => none

/-- The exact character sequence `json.dumps` produces for one prediction
dict with string fields. -/
def predictionLine (i m p : String) : List Char :=
  '\x7b' :: '"' :: (jsonEscapeString "instance_id".toList ++ '"' :: ':' :: ' ' :: '"' ::
    (jsonEscapeString i.toList ++ '"' :: ',' :: ' ' :: '"' ::
    (jsonEscapeString "model_name_or_path".toList ++ '"' :: ':' :: ' ' :: '"' ::
    (jsonEscapeString m.toList ++ '"' :: ',' :: ' ' :: '"' ::
    (jsonEscapeString "model_patch".toList ++ '"' :: ':' :: ' ' :: '"' ::
    (jsonEscapeString p.toList ++ ['"', '\x7d']))))))

theorem pyHashElems_map_jstr (l : List String) :
    pyHashElems (l.map jstr) = .ok (l.map .pStr) := by
  induction l with
  | nil => rfl
  | cons a t ih => simp [pyHashElems, pyHash, ih]

theorem pySet_map_jstr (l : List String) :
    pySet (jarr (l.map jstr)) = .ok (l.map .pStr) :=
  pyHashElems_map_jstr l

theorem pyPrimEq_pStr (s t : String) :
    pyPrimEq (.pStr s) (.pStr t) = decide (s = t) := rfl

theorem pyMem_map_pStr (x : String) (l : List String) :
    pyMem (.pStr x) (l.map .pStr) = true ↔ x ∈ l := by
  induction l with
  | nil => simp [pyMem]
  | cons a t ih =>
    simp only [List.map_cons, pyMem, List.any_cons, Bool.or_eq_true, pyPrimEq_pStr,
      decide_eq_true_eq, List.mem_cons] at ih ⊢
    exact or_congr Iff.rfl ih

theorem pyAll_map_pStr (a b : List String) :
    ((a.map Prim.pStr).all fun p => pyMem p (b.map Prim.pStr)) = true ↔
      ∀ x ∈ a, x ∈ b := by
  induction a with
  | nil => simp
  | cons q t ih =>
    simp only [List.map_cons, List.all_cons, Bool.and_eq_true, ih, pyMem_map_pStr,
      List.forall_mem_cons]

theorem pySetEq_map_pStr (a b : List String) :
    pySetEq (a.map .pStr) (b.map .pStr) = true ↔ (∀ x, x ∈ a ↔ x ∈ b) := by
  simp only [pySetEq, Bool.and_eq_true, pyAll_map_pStr]
  constructor
  · rintro ⟨h1, h2⟩ x
    exact ⟨fun hx => h1 x hx, fun hx => h2 x hx⟩
  · intro h
    exact ⟨fun x hx => (h x).mp hx, fun x hx => (h x).mpr hx⟩

/-- Full reduction of the Reconciler on a record whose test-list fields
parse to string arrays, against a well-shaped parsed report. -/
theorem analyze_report_reduction (iid patch fs ps : String) (eF eP aF aP : List String)
    (r : Bool)
    (hF : parseJsonString fs = .ok (jarr (eF.map jstr)))
    (hP : parseJsonString ps = .ok (jarr (eP.map jstr))) :
    analyze_test_results (jobj (mkRecordFields iid patch fs ps))
        (.parsed (mkReportContent iid r aF aP)) =
      .ok (.analyzed
        { validation_status :=
            if pySetEq (eF.map .pStr) (aF.map .pStr) &&
                (pySetEq (eP.map .pStr) (aP.map .pStr) && r) then "success"
            else "test_mismatch"
          problem_resolved := jbool r
          failing_tests_match := pySetEq (eF.map .pStr) (aF.map .pStr)
          passing_tests_match := pySetEq (eP.map .pStr) (aP.map .pStr)
          expected_failing_tests := jarr (eF.map jstr)
          actual_failing_tests := jarr (aF.map jstr)
          expected_passing_tests := jarr (eP.map jstr)
          actual_passing_tests := jarr (aP.map jstr) }) := by
  simp [analyze_test_results, mkRecordFields, pyIndex, lookupField, pyLoads, hF, hP,
    mkReportContent, analyzeReport, pyDictGetKey, pyDictGet, pySet_map_jstr,
    pythonTruthy, Bool.and_assoc]

/-- The verdict string computed from the two match booleans and the
truthiness of `resolved`. -/
theorem verdict_string_iff (A B r : Bool) (PA PB : Prop)
    (hA : A = true ↔ PA) (hB : B = true ↔ PB) :
    ((if A && (B && r) then "success" else "test_mismatch") = "success" ↔
      PA ∧ PB ∧ r = true) ∧
    ((if A && (B && r) then "success" else "test_mismatch") = "success" ∨
     (if A && (B && r) then "success" else "test_mismatch") = "test_mismatch") := by
  cases A <;> cases B <;> cases r <;> simp_all

/-- C1: for a validated record whose report file exists and parses, the
verdict is `success` iff the expected fail-to-pass set equals the observed
fail-to-pass success set, the expected pass-to-pass set equals the observed
pass-to-pass success set, and the report's `resolved` flag is true;
otherwise it is `test_mismatch`; and the two match booleans, the resolved
flag and the raw expected/observed lists are all returned alongside the
verdict, also on success. -/
theorem c1_verdict_success_iff (iid fs ps : String) (eF eP aF aP : List String) (r : Bool)
    (hF : parseJsonString fs = .ok (jarr (eF.map jstr)))
    (hP : parseJsonString ps = .ok (jarr (eP.map jstr))) :
    ∃ t, analyze_test_results (jobj (mkRecordFields iid "diff" fs ps))
        (.parsed (mkReportContent iid r aF aP)) = .ok (.analyzed t) ∧
      (t.validation_status = "success" ↔
        (∀ x, x ∈ eF ↔ x ∈ aF) ∧ (∀ x, x ∈ eP ↔ x ∈ aP) ∧ r = true) ∧
      (t.validation_status = "success" ∨ t.validation_status = "test_mismatch") ∧
      (t.failing_tests_match = true ↔ (∀ x, x ∈ eF ↔ x ∈ aF)) ∧
      (t.passing_tests_match = true ↔ (∀ x, x ∈ eP ↔ x ∈ aP)) ∧
      t.problem_resolved = jbool r ∧
      t.expected_failing_tests = jarr (eF.map jstr) ∧
      t.actual_failing_tests = jarr (aF.map jstr) ∧
      t.expected_passing_tests = jarr (eP.map jstr) ∧
      t.actual_passing_tests = jarr (aP.map jstr) := by
  refine ⟨_, analyze_report_reduction iid "diff" fs ps eF eP aF aP r hF hP,
    (verdict_string_iff _ _ r _ _ (pySetEq_map_pStr eF aF) (pySetEq_map_pStr eP aP)).1,
    (verdict_string_iff _ _ r _ _ (pySetEq_map_pStr eF aF) (pySetEq_map_pStr eP aP)).2,
    pySetEq_map_pStr eF aF, pySetEq_map_pStr eP aP, rfl, rfl, rfl, rfl, rfl⟩

/-- C1 witness: a concrete record with `FAIL_TO_PASS = "[\"t1\"]"`,
`PASS_TO_PASS = "[]"`, an observed report with `success = ["t1"]` and `[]`,
and `resolved = true`. -/
theorem c1_witness :
    parseJsonString "[\"t1\"]" = .ok (jarr ((["t1"] : List String).map jstr)) ∧
    parseJsonString "[]" = .ok (jarr (([] : List String).map jstr)) ∧
    ∃ t, analyze_test_results (jobj (mkRecordFields "X" "diff" "[\"t1\"]" "[]"))
        (.parsed (mkReportContent "X" true ["t1"] [])) = .ok (.analyzed t) ∧
      (t.validation_status = "success" ↔
        (∀ x, x ∈ (["t1"] : List String) ↔ x ∈ (["t1"] : List String)) ∧
        (∀ x, x ∈ ([] : List String) ↔ x ∈ ([] : List String)) ∧ true = true) ∧
      (t.validation_status = "success" ∨ t.validation_status = "test_mismatch") ∧
      (t.failing_tests_match = true ↔
        (∀ x, x ∈ (["t1"] : List String) ↔ x ∈ (["t1"] : List String))) ∧
      (t.passing_tests_match = true ↔
        (∀ x, x ∈ ([] : List String) ↔ x ∈ ([] : List String))) ∧
      t.problem_resolved = jbool true ∧
      t.expected_failing_tests = jarr ((["t1"] : List String).map jstr) ∧
      t.actual_failing_tests = jarr ((["t1"] : List String).map jstr) ∧
      t.expected_passing_tests = jarr (([] : List String).map jstr) ∧
      t.actual_passing_tests = jarr (([] : List String).map jstr) :=
  ⟨rfl, rfl, c1_verdict_success_iff "X" "[\"t1\"]" "[]" ["t1"] [] ["t1"] [] true rfl rfl⟩

/-- C4: the Reconciler's expected-vs-observed comparison is set equality,
hence order-independent, and subset in either direction is not a match: a
permuted observed list still matches, while an extra observed name outside
the expected set, or an expected name missing from the observed list, makes
`failing_tests_match` false. -/
theorem c4_set_equality_comparison (iid fs : String) (eF aF : List String)
    (hF : parseJsonString fs = .ok (jarr (eF.map jstr))) :
    ∃ t, analyze_test_results (jobj (mkRecordFields iid "diff" fs "[]"))
        (.parsed (mkReportContent iid true aF [])) = .ok (.analyzed t) ∧
      (eF.Perm aF → t.failing_tests_match = true) ∧
      (∀ x, x ∈ aF → x ∉ eF → t.failing_tests_match = false) ∧
      (∀ x, x ∈ eF → x ∉ aF → t.failing_tests_match = false) := by
  refine ⟨_, analyze_report_reduction iid "diff" fs "[]" eF [] aF [] true hF rfl,
    ?_, ?_, ?_⟩
  · intro hperm
    exact (pySetEq_map_pStr eF aF).mpr fun x => hperm.mem_iff
  · intro x hx hnx
    dsimp only
    cases hb : pySetEq (eF.map .pStr) (aF.map .pStr) with
    | false => rfl
    | true => exact absurd (((pySetEq_map_pStr eF aF).mp hb x).mpr hx) hnx
  · intro x hx hnx
    dsimp only
    cases hb : pySetEq (eF.map .pStr) (aF.map .pStr) with
    | false => rfl
    | true => exact absurd (((pySetEq_map_pStr eF aF).mp hb x).mp hx) hnx

/-- C4 witness: expected `["t1", "t2"]` against observed `["t2", "t1"]`
(permuted), with extra name `"t3"` and missing-name instances. -/
theorem c4_witness :
    parseJsonString "[\"t1\", \"t2\"]" =
      .ok (jarr ((["t1", "t2"] : List String).map jstr)) ∧
    ∃ t, analyze_test_results
        (jobj (mkRecordFields "X" "diff" "[\"t1\", \"t2\"]" "[]"))
        (.parsed (mkReportContent "X" true ["t2", "t1"] [])) = .ok (.analyzed t) ∧
      ((["t1", "t2"] : List String).Perm ["t2", "t1"] → t.failing_tests_match = true) ∧
      (∀ x, x ∈ (["t2", "t1"] : List String) → x ∉ (["t1", "t2"] : List String) →
        t.failing_tests_match = false) ∧
      (∀ x, x ∈ (["t1", "t2"] : List String) → x ∉ (["t2", "t1"] : List String) →
        t.failing_tests_match = false) :=
  ⟨rfl, c4_set_equality_comparison "X" "[\"t1\", \"t2\"]" ["t1", "t2"] ["t2", "t1"] rfl⟩

/-- C5: with the record's test-list fields parsing, a missing report file
yields the `report_not_found` verdict (no raise), and a report file that
exists but cannot be read or parsed yields the `read_error` verdict carrying
the underlying cause. -/
theorem c5_report_not_found_and_read_error (iid patch fs ps : String) (vF vP : JValue)
    (hF : parseJsonString fs = .ok vF) (hP : parseJsonString ps = .ok vP) :
    analyze_test_results (jobj (mkRecordFields iid patch fs ps)) .absent =
      .ok (.reportNotFound "report.json does not exist") ∧
    ∀ cause, analyze_test_results (jobj (mkRecordFields iid patch fs ps))
        (.unreadable cause) = .ok (.readError cause) := by
  constructor
  · simp [analyze_test_results, mkRecordFields, pyIndex, lookupField, pyLoads, hF, hP]
  · intro cause
    simp [analyze_test_results, mkRecordFields, pyIndex, lookupField, pyLoads, hF, hP]

/-- C5 witness: the concrete record of the spec's scenario, with the report
absent and with it unreadable. -/
theorem c5_witness :
    parseJsonString "[\"t1\"]" = .ok (jarr [jstr "t1"]) ∧
    parseJsonString "[]" = .ok (jarr []) ∧
    analyze_test_results (jobj (mkRecordFields "X" "diff" "[\"t1\"]" "[]")) .absent =
      .ok (.reportNotFound "report.json does not exist") ∧
    ∀ cause, analyze_test_results (jobj (mkRecordFields "X" "diff" "[\"t1\"]" "[]"))
        (.unreadable cause) = .ok (.readError cause) :=
  ⟨rfl, rfl,
    (c5_report_not_found_and_read_error "X" "diff" "[\"t1\"]" "[]"
      (jarr [jstr "t1"]) (jarr []) rfl rfl).1,
    (c5_report_not_found_and_read_error "X" "diff" "[\"t1\"]" "[]"
      (jarr [jstr "t1"]) (jarr []) rfl rfl).2⟩

/-- C6 counterexample: the field text `"5"` is not parseable as a JSON array
(it parses as the number 5), yet with the report file absent the Reconciler
returns `report_not_found` — the claim's "never reported as harness produced
no report" fails for fields that are valid JSON of a non-array shape,
because both `json.loads` calls succeed before the existence check. -/
theorem c6_counterexample :
    isJsonArray (parseJsonString "5") = false ∧
    parseJsonString "5" = .ok (jnum 5) ∧
    analyze_test_results (jobj (mkRecordFields "X" "diff" "5" "[]")) .absent =
      .ok (.reportNotFound "report.json does not exist") :=
  ⟨rfl, rfl, rfl⟩

/-- C6 amended: a test-list field that is not parseable as JSON at all makes
`json.loads` raise before the report-existence check, so for every
report-file state — including an absent report — the Reconciler propagates
the exception (caught by `_process_single_file`) rather than returning any
outcome dict, and in particular never `report_not_found`. -/
theorem c6_parse_error_distinct (iid patch fs ps e : String) (rf : ReportFile) :
    (parseJsonString fs = .error e →
      analyze_test_results (jobj (mkRecordFields iid patch fs ps)) rf = .error e) ∧
    (∀ vF, parseJsonString fs = .ok vF → parseJsonString ps = .error e →
      analyze_test_results (jobj (mkRecordFields iid patch fs ps)) rf = .error e) ∧
    (∀ o : AnalysisOutcome,
      (Except.error e : Except String AnalysisOutcome) ≠ .ok o) := by
  refine ⟨?_, ?_, fun o h => Except.noConfusion h⟩
  · intro hF
    simp [analyze_test_results, mkRecordFields, pyIndex, lookupField, pyLoads, hF]
  · intro vF hF hP
    simp [analyze_test_results, mkRecordFields, pyIndex, lookupField, pyLoads, hF, hP]

/-- C6 witness: the unparseable field text `"oops"`, first in `FAIL_TO_PASS`
and then in `PASS_TO_PASS`, with the report absent. -/
theorem c6_witness :
    parseJsonString "oops" = .error "JSONDecodeError: Expecting value" ∧
    analyze_test_results (jobj (mkRecordFields "X" "diff" "oops" "[]")) .absent =
      .error "JSONDecodeError: Expecting value" ∧
    analyze_test_results (jobj (mkRecordFields "X" "diff" "[]" "oops")) .absent =
      .error "JSONDecodeError: Expecting value" :=
  ⟨rfl,
    (c6_parse_error_distinct "X" "diff" "oops" "[]" _ .absent).1 rfl,
    (c6_parse_error_distinct "X" "diff" "[]" "oops" _ .absent).2.1 (jarr []) rfl rfl⟩

/-- C3 counterexample: a record whose two test-list fields are the JSON text
`"[]"` — both parsing to empty lists — passes the integrity check and
appears in the Loader's result, so the Loader does not reject it. -/
theorem c3_counterexample :
    parseJsonString "[]" = .ok (jarr []) ∧
    check_data_integrity (mkRecordFields "X" "diff" "[]" "[]") = true ∧
    load_datasets [.parsed (jobj (mkRecordFields "X" "diff" "[]" "[]"))] =
      [jobj (mkRecordFields "X" "diff" "[]" "[]")] :=
  ⟨rfl, rfl, rfl⟩

/-- C3 amended: the load-time test-list check is raw Python truthiness of
the two field values, not emptiness after parsing: a record is rejected only
when both raw values are falsy (for instance genuinely empty arrays or empty
strings), and such a record never appears in any Loader result; the JSON
text `"[]"` is a non-empty string, hence truthy, and passes (as the
counterexample shows). -/
theorem c3_truthiness_rejection (item : List (String × JValue))
    (hF : pythonTruthy ((lookupField item "FAIL_TO_PASS").getD (jarr [])) = false)
    (hP : pythonTruthy ((lookupField item "PASS_TO_PASS").getD (jarr [])) = false) :
    check_data_integrity item = false ∧
    ∀ files : List FileContent, jobj item ∉ load_datasets files := by
  have hcheck : check_data_integrity item = false := by
    simp [check_data_integrity, hF, hP]
  refine ⟨hcheck, ?_⟩
  intro files hmem
  rw [load_datasets, List.mem_filterMap] at hmem
  obtain ⟨fc, -, hfc⟩ := hmem
  match fc with
  | .unreadable _ => exact Option.noConfusion hfc
  | .invalidJson _ => exact Option.noConfusion hfc
  | .parsed jnull => exact Option.noConfusion hfc
  | .parsed (jbool _) => exact Option.noConfusion hfc
  | .parsed (jnum _) => exact Option.noConfusion hfc
  | .parsed (jfloat _) => exact Option.noConfusion hfc
  | .parsed (jstr _) => exact Option.noConfusion hfc
  | .parsed (jarr _) => exact Option.noConfusion hfc
  | .parsed (jobj fields) =>
    dsimp only [parse_json_file] at hfc
    by_cases hc : check_data_integrity fields = true
    · rw [if_pos hc] at hfc
      obtain rfl : fields = item := jobj.inj (Option.some.inj hfc)
      rw [hcheck] at hc
      exact Bool.noConfusion hc
    · rw [if_neg hc] at hfc
      exact Option.noConfusion hfc

/-- C3 amended-claim witness: a record whose raw field values are an empty
array and an empty string (both falsy) is excluded. -/
theorem c3_witness :
    check_data_integrity falsyTestsFields = false ∧
    jobj falsyTestsFields ∉ load_datasets [.parsed (jobj falsyTestsFields)] :=
  ⟨(c3_truthiness_rejection falsyTestsFields rfl rfl).1,
   (c3_truthiness_rejection falsyTestsFields rfl rfl).2 _⟩

/-- C8 counterexample: the Loader returns a record whose two test-list
fields are the JSON text `"[]"`, i.e. both expected test lists are empty
after parsing — so the claimed returned-record invariant "at least one
non-empty test list" (per the data model: non-empty after parsing) does not
hold on the Loader's output. -/
theorem c8_counterexample :
    jobj (mkRecordFields "X" "diff" "[]" "[]") ∈
      load_datasets [.parsed (jobj (mkRecordFields "X" "diff" "[]" "[]"))] ∧
    lookupField (mkRecordFields "X" "diff" "[]" "[]") "FAIL_TO_PASS" =
      some (jstr "[]") ∧
    lookupField (mkRecordFields "X" "diff" "[]" "[]") "PASS_TO_PASS" =
      some (jstr "[]") ∧
    parseJsonString "[]" = .ok (jarr []) := by
  refine ⟨?_, rfl, rfl, rfl⟩
  rw [show load_datasets [.parsed (jobj (mkRecordFields "X" "diff" "[]" "[]"))] =
      [jobj (mkRecordFields "X" "diff" "[]" "[]")] from rfl]
  exact List.mem_singleton.mpr rfl

/-- C8 as amended: the per-file load is a total function of the file's
content — every failure mode (unreadable file, invalid JSON, failed
integrity check) maps to exclusion of that file, never to an escaping
exception — and every record the Loader returns is an object satisfying the
integrity invariants the code actually checks: all six mandatory fields
present, a string `patch` with non-whitespace content, and at least one
test-list field truthy as a raw value.  The original claim's reading of the
test-list invariant ("non-empty after parsing") fails on the Loader's
output: see the counterexample below. -/
theorem c8_loader_guarantees (files : List FileContent) (r : JValue)
    (h : r ∈ load_datasets files) :
    ∃ fields, r = jobj fields ∧
      (∀ f ∈ mandatory_fields, (lookupField fields f).isSome = true) ∧
      (∃ s, (lookupField fields "patch").getD (jstr "") = jstr s ∧
        stripIsEmpty s = false) ∧
      (pythonTruthy ((lookupField fields "FAIL_TO_PASS").getD (jarr [])) = true ∨
       pythonTruthy ((lookupField fields "PASS_TO_PASS").getD (jarr [])) = true) := by
  rw [load_datasets, List.mem_filterMap] at h
  obtain ⟨fc, -, hfc⟩ := h
  match fc with
  | .unreadable _ => exact Option.noConfusion hfc
  | .invalidJson _ => exact Option.noConfusion hfc
  | .parsed jnull => exact Option.noConfusion hfc
  | .parsed (jbool _) => exact Option.noConfusion hfc
  | .parsed (jnum _) => exact Option.noConfusion hfc
  | .parsed (jfloat _) => exact Option.noConfusion hfc
  | .parsed (jstr _) => exact Option.noConfusion hfc
  | .parsed (jarr _) => exact Option.noConfusion hfc
  | .parsed (jobj fields) =>
    dsimp only [parse_json_file] at hfc
    by_cases hc : check_data_integrity fields = true
    · rw [if_pos hc] at hfc
      obtain rfl : r = jobj fields := (Option.some.inj hfc).symm
      refine ⟨fields, rfl, ?_⟩
      rw [check_data_integrity, Bool.and_eq_true, Bool.and_eq_true] at hc
      obtain ⟨⟨hc1, hc2⟩, hc3⟩ := hc
      refine ⟨?_, ?_, ?_⟩
      · rw [List.all_eq_true] at hc1
        exact fun f hf => hc1 f hf
      · rcases hpv : (lookupField fields "patch").getD (jstr "") with
          _ | _ | _ | _ | s | _ | _ <;> rw [hpv] at hc2 <;>
          first
          | exact Bool.noConfusion hc2
          | exact ⟨s, rfl, by rwa [Bool.not_eq_true'] at hc2⟩
      · rwa [Bool.or_eq_true] at hc3
    · rw [if_neg hc] at hfc
      exact Option.noConfusion hfc

/-- C8 witness: a concrete well-formed file is loaded and its record
satisfies the invariants. -/
theorem c8_witness :
    jobj (mkRecordFields "X" "diff" "[\"t1\"]" "[]") ∈
      load_datasets [.parsed (jobj (mkRecordFields "X" "diff" "[\"t1\"]" "[]"))] ∧
    ∃ fields, jobj (mkRecordFields "X" "diff" "[\"t1\"]" "[]") = jobj fields ∧
      (∀ f ∈ mandatory_fields, (lookupField fields f).isSome = true) ∧
      (∃ s, (lookupField fields "patch").getD (jstr "") = jstr s ∧
        stripIsEmpty s = false) ∧
      (pythonTruthy ((lookupField fields "FAIL_TO_PASS").getD (jarr [])) = true ∨
       pythonTruthy ((lookupField fields "PASS_TO_PASS").getD (jarr [])) = true) := by
  have hmem : jobj (mkRecordFields "X" "diff" "[\"t1\"]" "[]") ∈
      load_datasets [.parsed (jobj (mkRecordFields "X" "diff" "[\"t1\"]" "[]"))] := by
    rw [show load_datasets [.parsed (jobj (mkRecordFields "X" "diff" "[\"t1\"]" "[]"))] =
        [jobj (mkRecordFields "X" "diff" "[\"t1\"]" "[]")] from rfl]
    exact List.mem_singleton.mpr rfl
  exact ⟨hmem, c8_loader_guarantees _ _ hmem⟩

/-- C7: a harness invocation that exceeds the 30-minute timeout yields a
failure with the fixed reason `Execution timeout exceeded` and no child
process left running; a zero exit yields success; a non-zero exit yields a
failure carrying the exit code; and the timeout reason is distinct from
every exit-code reason and every launch-failure (`OSError`) message. -/
theorem c7_docker_invocation (child : ChildBehavior) :
    (child.launch = .launches → docker_timeout_seconds < child.runSeconds →
      _run_docker_evaluation child =
        ({ success := false, error := some "Execution timeout exceeded" }, false)) ∧
    (child.launch = .launches → child.runSeconds ≤ docker_timeout_seconds →
      child.exitCode = 0 →
      _run_docker_evaluation child = ({ success := true, error := none }, false)) ∧
    (child.launch = .launches → child.runSeconds ≤ docker_timeout_seconds →
      child.exitCode ≠ 0 →
      _run_docker_evaluation child =
        ({ success := false,
           error := some ("Exit code: " ++ toString child.exitCode) }, false)) ∧
    (∀ n m fn, _run_docker_evaluation { child with launch := .raisesOSError n m fn } =
      ({ success := false, error := some (osErrorStr n m fn) }, false)) ∧
    (∀ code : Int, "Exit code: " ++ toString code ≠ "Execution timeout exceeded") ∧
    (∀ n m fn, osErrorStr n m fn ≠ "Execution timeout exceeded") := by
  refine ⟨?_, ?_, ?_, ?_, ?_, ?_⟩
  · intro hl ht
    simp [_run_docker_evaluation, subprocess_run, hl, ht]
  · intro hl ht hc
    simp [_run_docker_evaluation, subprocess_run, hl, Nat.not_lt.mpr ht, hc]
  · intro hl ht hc
    simp [_run_docker_evaluation, subprocess_run, hl, Nat.not_lt.mpr ht, hc]
  · intro n m fn
    simp [_run_docker_evaluation, subprocess_run]
  · intro code h
    have := congrArg String.data h
    simp [String.data_append] at this
  · intro n m fn h
    have := congrArg String.data (show ("[Errno " ++ toString n ++ "] " ++ m ++ ": '" ++
      fn ++ "'") = "Execution timeout exceeded" from h)
    simp [String.data_append] at this

/-- C7 witness: a run that would take 1801 seconds times out with the fixed
reason; a 60-second run with exit 0 succeeds; exit 2 carries `Exit code: 2`. -/
theorem c7_witness :
    _run_docker_evaluation ⟨.launches, 1801, 0⟩ =
      ({ success := false, error := some "Execution timeout exceeded" }, false) ∧
    _run_docker_evaluation ⟨.launches, 60, 0⟩ =
      ({ success := true, error := none }, false) ∧
    _run_docker_evaluation ⟨.launches, 60, 2⟩ =
      ({ success := false, error := some "Exit code: 2" }, false) :=
  ⟨(c7_docker_invocation ⟨.launches, 1801, 0⟩).1 rfl (by decide),
   (c7_docker_invocation ⟨.launches, 60, 0⟩).2.1 rfl (by decide) rfl,
   (c7_docker_invocation ⟨.launches, 60, 2⟩).2.2.1 rfl (by decide) (by decide)⟩

theorem length_filter_add_length_filter_not {α : Type} (p : α → Bool) (l : List α) :
    (l.filter p).length + (l.filter fun a => !p a).length = l.length := by
  induction l with
  | nil => rfl
  | cons a t ih => rcases h : p a with _ | _ <;> simp [List.filter_cons, h] <;> omega

theorem length_filter_map_snd {α β : Type} (l : List α) (g : α → β) (p : β → Bool) :
    (((l.map fun a => (a, g a)).filter fun r => p r.2).length) =
      (l.filter fun a => p (g a)).length := by
  rw [List.filter_map]
  simp only [List.length_map]
  rfl

/-- C10: a batch over a non-empty request list returns a summary whose
success and error counts partition the total, with the total equal to the
number of requested names (hence at least 1); an empty request list returns
the top-level error instead, so the `total_processed = 0` guard of the
percentage computation is never exercised on the summary path. -/
theorem c10_summary_invariant (target_files : List String) (env : String → FileEnv) :
    (target_files = [] →
      process_validation target_files env = .error "No files found for processing") ∧
    (target_files ≠ [] →
      ∃ s, process_validation target_files env = .ok s ∧
        s.success_count + s.error_count = s.total_processed ∧
        s.total_processed = target_files.length ∧ 1 ≤ s.total_processed) := by
  constructor
  · rintro rfl
    rfl
  · intro h
    have he : target_files.isEmpty = false := by
      cases target_files with
      | nil => exact absurd rfl h
      | cons a t => rfl
    rw [process_validation, he]
    refine ⟨_, rfl, ?_, rfl, ?_⟩
    · dsimp only
      have hpart := length_filter_add_length_filter_not (fun r => singleFileSuccess r.2)
        (target_files.map fun f => (f, _process_single_file f (env f)))
      rw [List.length_map] at hpart
      exact hpart
    · cases target_files with
      | nil => exact absurd rfl h
      | cons a t => simp

/-- C10 witness: the empty request errors; the one-name request (whose file
is absent) gives a summary with `0 + 1 = 1`. -/
theorem c10_witness :
    process_validation [] trivialEnv = .error "No files found for processing" ∧
    ∃ s, process_validation ["f1"] trivialEnv = .ok s ∧
      s.success_count + s.error_count = s.total_processed ∧
      s.total_processed = (["f1"] : List String).length ∧ 1 ≤ s.total_processed :=
  ⟨(c10_summary_invariant [] trivialEnv).1 rfl,
   (c10_summary_invariant ["f1"] trivialEnv).2 (by decide)⟩

/-- C2 counterexample: in a batch of 3 requested records where `f1` fails to
load, `f2` reaches verdict `success` and `f3` reaches verdict
`test_mismatch`, the summary is `total_processed = 3, success_count = 2,
error_count = 1, success_percentage = 200/3 ≈ 66.7` — not `1/2/≈33.3`: a
completed pipeline with verdict `test_mismatch` is counted as a success. -/
theorem c2_counterexample :
    singleFileSuccess (_process_single_file "f1" (envC2 "f1")) = false ∧
    resultStatus (_process_single_file "f2" (envC2 "f2")) = some "success" ∧
    resultStatus (_process_single_file "f3" (envC2 "f3")) = some "test_mismatch" ∧
    summaryCounts (process_validation ["f1", "f2", "f3"] envC2) = some (3, 2, 1) ∧
    summaryPercentage (process_validation ["f1", "f2", "f3"] envC2) =
      some (200 / 3 : Rat) := by
  refine ⟨rfl, rfl, rfl, rfl, ?_⟩
  show some ((2 : Rat) / 3 * 100) = some (200 / 3 : Rat)
  norm_num

/-- C2 amended: the batch summary counts as successes exactly the records
whose per-file pipeline completed (load, convert, write submission, harness
run) — the reconciliation verdict, `test_mismatch` included, does not affect
the count — and counts every other outcome as an error; for the example
batch of 3 with 1 load failure, 1 `success` verdict and 1 `test_mismatch`
verdict the summary is `total_processed = 3, success_count = 2,
error_count = 1, success_percentage ≈ 66.7`. -/
theorem c2_success_counts_pipeline_completion (target_files : List String)
    (env : String → FileEnv) (h : target_files ≠ []) :
    ∃ s, process_validation target_files env = .ok s ∧
      s.success_count = (target_files.filter fun f =>
        singleFileSuccess (_process_single_file f (env f))).length ∧
      s.error_count = (target_files.filter fun f =>
        !singleFileSuccess (_process_single_file f (env f))).length ∧
      (∀ iid run a, singleFileSuccess (.ok iid run a) = true) := by
  have he : target_files.isEmpty = false := by
    cases target_files with
    | nil => exact absurd rfl h
    | cons a t => rfl
  rw [process_validation, he]
  refine ⟨_, rfl, ?_, ?_, fun _ _ _ => rfl⟩
  · dsimp only
    exact length_filter_map_snd target_files (fun f => _process_single_file f (env f))
      (fun b => singleFileSuccess b)
  · dsimp only
    exact length_filter_map_snd target_files (fun f => _process_single_file f (env f))
      (fun b => !singleFileSuccess b)

/-- C2 amended-claim witness: the example batch, with the success count
matching the two completed pipelines (`f2` and `f3`). -/
theorem c2_witness :
    ∃ s, process_validation ["f1", "f2", "f3"] envC2 = .ok s ∧
      s.success_count = ((["f1", "f2", "f3"] : List String).filter fun f =>
        singleFileSuccess (_process_single_file f (envC2 f))).length ∧
      s.error_count = ((["f1", "f2", "f3"] : List String).filter fun f =>
        !singleFileSuccess (_process_single_file f (envC2 f))).length ∧
      (∀ iid run a, singleFileSuccess (.ok iid run a) = true) :=
  c2_success_counts_pipeline_completion ["f1", "f2", "f3"] envC2 (by decide)

/-! ## Round-trip of the submission file (C9)

The serializer `dumpsPrediction` writes a flat JSON object of three string
fields; the lemmas below show that reading the file back line by line and
parsing each line with the embedded `json.loads` recovers exactly the
formatted values. -/

theorem hexVal_hexDigitChar (d : Nat) (h : d < 16) :
    hexVal (hexDigitChar d) = some d := by
  interval_cases d <;> decide

theorem hexDigitChar_ne_nl (d : Nat) (h : d < 16) : hexDigitChar d ≠ '\n' := by
  interval_cases d <;> decide

theorem parseHex4_hex4Chars (n : Nat) (h : n < 0x10000) (r : List Char) :
    parseHex4 (hex4Chars n ++ r) = some (n, r) := by
  have h1 : n / 4096 % 16 < 16 := Nat.mod_lt _ (by norm_num)
  have h2 : n / 256 % 16 < 16 := Nat.mod_lt _ (by norm_num)
  have h3 : n / 16 % 16 < 16 := Nat.mod_lt _ (by norm_num)
  have h4 : n % 16 < 16 := Nat.mod_lt _ (by norm_num)
  simp only [hex4Chars, List.cons_append, List.nil_append, parseHex4,
    hexVal_hexDigitChar _ h1, hexVal_hexDigitChar _ h2, hexVal_hexDigitChar _ h3,
    hexVal_hexDigitChar _ h4, Option.bind_eq_bind, Option.some_bind]
  exact congrArg some (Prod.ext (by omega) rfl)

/-- Scalar-value bounds every `Char` satisfies. -/
theorem char_toNat_bounds (c : Char) :
    c.toNat < 0x110000 ∧ ¬(0xD800 ≤ c.toNat ∧ c.toNat < 0xE000) := by
  have h := c.valid
  rw [Char.toNat]
  rcases h with h | h
  · exact ⟨by omega, by omega⟩
  · exact ⟨by omega, by omega⟩

/-- One step of the scanner on a `\uXXXX` escape, by definitional
unfolding. -/
theorem parseJStrAux_u_step (f : Nat) (acc rest2 : List Char) :
    parseJStrAux (f + 1) acc ('\\' :: 'u' :: rest2) =
      match parseHex4 rest2 with
      | none => none
      | some (n, rest3) =>
        if 0xD800 ≤ n && n < 0xDC00 then
          match rest3 with
          | '\\' :: 'u' :: rest4 =>
            match parseHex4 rest4 with
            | some (m, rest5) =>
              if 0xDC00 ≤ m && m < 0xE000 then
                parseJStrAux f
                  (Char.ofNat (0x10000 + (n - 0xD800) * 0x400 + (m - 0xDC00)) :: acc) rest5
              else none
            | none => none
          | _ => none
        else if 0xDC00 ≤ n && n < 0xE000 then none
        else parseJStrAux f (Char.ofNat n :: acc) rest3 := rfl

/-- One step of the scanner on an arbitrary head character, by definitional
unfolding. -/
theorem parseJStrAux_cons_step (fuel : Nat) (acc : List Char) (c : Char)
    (rest : List Char) :
    parseJStrAux (fuel + 1) acc (c :: rest) =
      (if c = '"' then some (String.mk acc.reverse, rest)
       else if c = '\\' then
         match rest with
         | [] => none
         | e :: rest2 =>
           if e = '"' then parseJStrAux fuel ('"' :: acc) rest2
           else if e = '\\' then parseJStrAux fuel ('\\' :: acc) rest2
           else if e = '/' then parseJStrAux fuel ('/' :: acc) rest2
           else if e = 'b' then parseJStrAux fuel ('\x08' :: acc) rest2
           else if e = 'f' then parseJStrAux fuel ('\x0c' :: acc) rest2
           else if e = 'n' then parseJStrAux fuel ('\n' :: acc) rest2
           else if e = 'r' then parseJStrAux fuel ('\x0d' :: acc) rest2
           else if e = 't' then parseJStrAux fuel ('\t' :: acc) rest2
           else if e = 'u' then
             match parseHex4 rest2 with
             | none => none
             | some (n, rest3) =>
               if 0xD800 ≤ n && n < 0xDC00 then
                 match rest3 with
                 | '\\' :: 'u' :: rest4 =>
                   match parseHex4 rest4 with
                   | some (m, rest5) =>
                     if 0xDC00 ≤ m && m < 0xE000 then
                       parseJStrAux fuel
                         (Char.ofNat (0x10000 + (n - 0xD800) * 0x400 + (m - 0xDC00)) ::
                           acc) rest5
                     else none
                   | none => none
                 | _ => none
               else if 0xDC00 ≤ n && n < 0xE000 then none
               else parseJStrAux fuel (Char.ofNat n :: acc) rest3
           else none
       else if c.toNat < 0x20 then none
       else parseJStrAux fuel (c :: acc) rest) := rfl

/-- The scanner inverts the escaper: reading an escaped body up to its
closing quote recovers the original characters. -/
theorem parseJStrAux_roundtrip (s : List Char) : ∀ (fuel : Nat) (acc rest : List Char),
    s.length < fuel →
    parseJStrAux fuel acc (jsonEscapeString s ++ '"' :: rest) =
      some (String.mk (acc.reverse ++ s), rest) := by
  induction s with
  | nil =>
    intro fuel acc rest hfuel
    obtain ⟨f, rfl⟩ : ∃ f, fuel = f + 1 := ⟨fuel - 1, by omega⟩
    rw [show jsonEscapeString [] = [] from rfl, List.nil_append]
    rw [show parseJStrAux (f + 1) acc ('"' :: rest) =
        some (String.mk acc.reverse, rest) from rfl]
    simp
  | cons c t ih =>
    intro fuel acc rest hfuel
    obtain ⟨f, rfl⟩ : ∃ f, fuel = f + 1 := ⟨fuel - 1, by omega⟩
    have hf : t.length < f := by
      simp only [List.length_cons] at hfuel
      omega
    have hstep : jsonEscapeString (c :: t) ++ '"' :: rest =
        jsonEscapeChar c ++ (jsonEscapeString t ++ '"' :: rest) := by
      simp [jsonEscapeString]
    rw [hstep]
    have hbounds := char_toNat_bounds c
    have hns : 0xD800 ≤ c.toNat → 0xE000 ≤ c.toNat := by
      intro hge
      rcases Nat.lt_or_ge c.toNat 0xE000 with hlt | hge2
      · exact absurd ⟨hge, hlt⟩ hbounds.2
      · exact hge2
    by_cases hq : c = '"'
    · subst hq
      rw [show jsonEscapeChar '"' = ['\\', '"'] from rfl, List.cons_append,
        List.cons_append, List.nil_append]
      rw [show parseJStrAux (f + 1) acc ('\\' :: '"' :: (jsonEscapeString t ++ '"' :: rest)) =
          parseJStrAux f ('"' :: acc) (jsonEscapeString t ++ '"' :: rest) from rfl]
      rw [ih f ('"' :: acc) rest hf]
      simp only [List.reverse_cons, List.append_assoc, List.singleton_append]
    · by_cases hbs : c = '\\'
      · subst hbs
        rw [show jsonEscapeChar '\\' = ['\\', '\\'] from rfl, List.cons_append,
          List.cons_append, List.nil_append]
        rw [show parseJStrAux (f + 1) acc
            ('\\' :: '\\' :: (jsonEscapeString t ++ '"' :: rest)) =
            parseJStrAux f ('\\' :: acc) (jsonEscapeString t ++ '"' :: rest) from rfl]
        rw [ih f ('\\' :: acc) rest hf]
        simp only [List.reverse_cons, List.append_assoc, List.singleton_append]
      · by_cases h08 : c = '\x08'
        · subst h08
          rw [show jsonEscapeChar '\x08' = ['\\', 'b'] from rfl, List.cons_append,
            List.cons_append, List.nil_append]
          rw [show parseJStrAux (f + 1) acc
              ('\\' :: 'b' :: (jsonEscapeString t ++ '"' :: rest)) =
              parseJStrAux f ('\x08' :: acc) (jsonEscapeString t ++ '"' :: rest) from rfl]
          rw [ih f ('\x08' :: acc) rest hf]
          simp only [List.reverse_cons, List.append_assoc, List.singleton_append]
        · by_cases h09 : c = '\t'
          · subst h09
            rw [show jsonEscapeChar '\t' = ['\\', 't'] from rfl, List.cons_append,
              List.cons_append, List.nil_append]
            rw [show parseJStrAux (f + 1) acc
                ('\\' :: 't' :: (jsonEscapeString t ++ '"' :: rest)) =
                parseJStrAux f ('\t' :: acc) (jsonEscapeString t ++ '"' :: rest) from rfl]
            rw [ih f ('\t' :: acc) rest hf]
            simp only [List.reverse_cons, List.append_assoc, List.singleton_append]
          · by_cases h0a : c = '\n'
            · subst h0a
              rw [show jsonEscapeChar '\n' = ['\\', 'n'] from rfl, List.cons_append,
                List.cons_append, List.nil_append]
              rw [show parseJStrAux (f + 1) acc
                  ('\\' :: 'n' :: (jsonEscapeString t ++ '"' :: rest)) =
                  parseJStrAux f ('\n' :: acc) (jsonEscapeString t ++ '"' :: rest) from rfl]
              rw [ih f ('\n' :: acc) rest hf]
              simp only [List.reverse_cons, List.append_assoc, List.singleton_append]
            · by_cases h0c : c = '\x0c'
              · subst h0c
                rw [show jsonEscapeChar '\x0c' = ['\\', 'f'] from rfl, List.cons_append,
                  List.cons_append, List.nil_append]
                rw [show parseJStrAux (f + 1) acc
                    ('\\' :: 'f' :: (jsonEscapeString t ++ '"' :: rest)) =
                    parseJStrAux f ('\x0c' :: acc) (jsonEscapeString t ++ '"' :: rest) from
                  rfl]
                rw [ih f ('\x0c' :: acc) rest hf]
                simp only [List.reverse_cons, List.append_assoc, List.singleton_append]
              · by_cases h0d : c = '\x0d'
                · subst h0d
                  rw [show jsonEscapeChar '\x0d' = ['\\', 'r'] from rfl, List.cons_append,
                    List.cons_append, List.nil_append]
                  rw [show parseJStrAux (f + 1) acc
                      ('\\' :: 'r' :: (jsonEscapeString t ++ '"' :: rest)) =
                      parseJStrAux f ('\x0d' :: acc) (jsonEscapeString t ++ '"' :: rest) from
                    rfl]
                  rw [ih f ('\x0d' :: acc) rest hf]
                  simp only [List.reverse_cons, List.append_assoc, List.singleton_append]
                · by_cases hlow : c.toNat < 0x20
                  · rw [show jsonEscapeChar c = '\\' :: 'u' :: hex4Chars c.toNat by
                      rw [jsonEscapeChar, if_neg hq, if_neg hbs, if_neg h08, if_neg h09,
                        if_neg h0a, if_neg h0c, if_neg h0d, if_pos hlow]]
                    rw [List.cons_append, List.cons_append, parseJStrAux_u_step]
                    simp only [parseHex4_hex4Chars c.toNat (by omega)]
                    have hd1 : decide (0xD800 ≤ c.toNat) = false :=
                      decide_eq_false (by omega)
                    have hd2 : decide (0xDC00 ≤ c.toNat) = false :=
                      decide_eq_false (by omega)
                    rw [hd1, Bool.false_and, if_neg Bool.false_ne_true,
                      hd2, Bool.false_and, if_neg Bool.false_ne_true,
                      Char.ofNat_toNat, ih f (c :: acc) rest hf]
                    simp only [List.reverse_cons, List.append_assoc, List.singleton_append]
                  · by_cases hmid : c.toNat ≤ 0x7E
                    · rw [show jsonEscapeChar c = [c] by
                        rw [jsonEscapeChar, if_neg hq, if_neg hbs, if_neg h08, if_neg h09,
                          if_neg h0a, if_neg h0c, if_neg h0d, if_neg hlow, if_pos hmid]]
                      rw [List.cons_append, List.nil_append]
                      rw [parseJStrAux_cons_step, if_neg hq, if_neg hbs, if_neg hlow,
                        ih f (c :: acc) rest hf]
                      simp only [List.reverse_cons, List.append_assoc,
                        List.singleton_append]
                    · by_cases hbmp : c.toNat < 0x10000
                      · rw [show jsonEscapeChar c = '\\' :: 'u' :: hex4Chars c.toNat by
                          rw [jsonEscapeChar, if_neg hq, if_neg hbs, if_neg h08, if_neg h09,
                            if_neg h0a, if_neg h0c, if_neg h0d, if_neg hlow, if_neg hmid,
                            if_pos hbmp]]
                        rw [List.cons_append, List.cons_append, parseJStrAux_u_step]
                        simp only [parseHex4_hex4Chars c.toNat hbmp]
                        have hd1 : (decide (0xD800 ≤ c.toNat) &&
                            decide (c.toNat < 0xDC00)) = false := by
                          by_cases hdl : 0xD800 ≤ c.toNat
                          · have h1 : ¬ c.toNat < 0xDC00 := by
                              have := hns hdl
                              omega
                            simp [h1]
                          · simp [hdl]
                        have hd2 : (decide (0xDC00 ≤ c.toNat) &&
                            decide (c.toNat < 0xE000)) = false := by
                          by_cases hdl : 0xDC00 ≤ c.toNat
                          · have h1 : ¬ c.toNat < 0xE000 := by
                              have := hns (by omega)
                              omega
                            simp [h1]
                          · simp [hdl]
                        rw [hd1, if_neg Bool.false_ne_true,
                          hd2, if_neg Bool.false_ne_true,
                          Char.ofNat_toNat, ih f (c :: acc) rest hf]
                        simp only [List.reverse_cons, List.append_assoc,
                          List.singleton_append]
                      · have hv : c.toNat - 0x10000 < 0x100000 := by
                          have := hbounds.1
                          omega
                        have hdivlt : (c.toNat - 0x10000) / 0x400 < 0x400 :=
                          Nat.div_lt_of_lt_mul (by omega)
                        have hmodlt : (c.toNat - 0x10000) % 0x400 < 0x400 :=
                          Nat.mod_lt _ (by norm_num)
                        have hhi : 0xD800 + (c.toNat - 0x10000) / 0x400 < 0x10000 := by
                          omega
                        have hlo : 0xDC00 + (c.toNat - 0x10000) % 0x400 < 0x10000 := by
                          omega
                        rw [show jsonEscapeChar c =
                            ('\\' :: 'u' :: hex4Chars (0xD800 + (c.toNat - 0x10000) / 0x400)) ++
                            ('\\' :: 'u' ::
                              hex4Chars (0xDC00 + (c.toNat - 0x10000) % 0x400)) by
                          rw [jsonEscapeChar, if_neg hq, if_neg hbs, if_neg h08, if_neg h09,
                            if_neg h0a, if_neg h0c, if_neg h0d, if_neg hlow, if_neg hmid,
                            if_neg hbmp]]
                        have hshape :
                            (('\\' :: 'u' ::
                                hex4Chars (0xD800 + (c.toNat - 0x10000) / 0x400)) ++
                              ('\\' :: 'u' ::
                                hex4Chars (0xDC00 + (c.toNat - 0x10000) % 0x400))) ++
                              (jsonEscapeString t ++ '"' :: rest) =
                            '\\' :: 'u' ::
                              (hex4Chars (0xD800 + (c.toNat - 0x10000) / 0x400) ++
                                ('\\' :: 'u' ::
                                  (hex4Chars (0xDC00 + (c.toNat - 0x10000) % 0x400) ++
                                    (jsonEscapeString t ++ '"' :: rest)))) := by
                          simp [List.append_assoc]
                        rw [hshape, parseJStrAux_u_step]
                        simp only
                          [parseHex4_hex4Chars (0xD800 + (c.toNat - 0x10000) / 0x400) hhi]
                        have hd1 : (decide (0xD800 ≤ 0xD800 + (c.toNat - 0x10000) / 0x400) &&
                            decide (0xD800 + (c.toNat - 0x10000) / 0x400 < 0xDC00)) =
                            true := by
                          have h1 : 0xD800 ≤ 0xD800 + (c.toNat - 0x10000) / 0x400 := by omega
                          have h2 : 0xD800 + (c.toNat - 0x10000) / 0x400 < 0xDC00 := by omega
                          simp [h1, h2]
                        rw [hd1, if_pos rfl]
                        simp only
                          [parseHex4_hex4Chars (0xDC00 + (c.toNat - 0x10000) % 0x400) hlo]
                        have hd2 : (decide (0xDC00 ≤ 0xDC00 + (c.toNat - 0x10000) % 0x400) &&
                            decide (0xDC00 + (c.toNat - 0x10000) % 0x400 < 0xE000)) =
                            true := by
                          have h1 : 0xDC00 ≤ 0xDC00 + (c.toNat - 0x10000) % 0x400 := by omega
                          have h2 : 0xDC00 + (c.toNat - 0x10000) % 0x400 < 0xE000 := by omega
                          simp [h1, h2]
                        rw [hd2, if_pos rfl]
                        have hcomb : 0x10000 +
                            (0xD800 + (c.toNat - 0x10000) / 0x400 - 0xD800) * 0x400 +
                            (0xDC00 + (c.toNat - 0x10000) % 0x400 - 0xDC00) = c.toNat := by
                          have hge : 0x10000 ≤ c.toNat := by omega
                          have hdm := Nat.div_add_mod (c.toNat - 0x10000) 0x400
                          omega
                        rw [hcomb, Char.ofNat_toNat, ih f (c :: acc) rest hf]
                        simp only [List.reverse_cons, List.append_assoc,
                          List.singleton_append]

set_option maxHeartbeats 1000000 in
theorem length_le_jsonEscapeString (s : List Char) :
    s.length ≤ (jsonEscapeString s).length := by
  induction s with
  | nil => simp [jsonEscapeString]
  | cons c t ih =>
    have hc : 1 ≤ (jsonEscapeChar c).length := by
      rw [jsonEscapeChar]
      split_ifs <;> simp [hex4Chars]
    have hsplit : jsonEscapeString (c :: t) = jsonEscapeChar c ++ jsonEscapeString t := by
      simp [jsonEscapeString]
    rw [hsplit, List.length_append, List.length_cons]
    omega

/-- The scanner call exactly as the value/key sites make it: fuel is one more
than the remaining input's length. -/
theorem parseJStrAux_call (k rest : List Char) :
    parseJStrAux ((jsonEscapeString k ++ '"' :: rest).length + 1) []
      (jsonEscapeString k ++ '"' :: rest) = some (String.mk k, rest) := by
  rw [parseJStrAux_roundtrip k _ [] rest
    (by
      have := length_le_jsonEscapeString k
      simp only [List.length_append, List.length_cons]
      omega)]
  simp

/-- Parsing a value that is a quoted string preceded by one space. -/
theorem parseJValueAux_string (f : Nat) (v rest : List Char) :
    parseJValueAux (f + 1) (' ' :: '"' :: (jsonEscapeString v ++ '"' :: rest)) =
      some (jstr (String.mk v), rest) := by
  rw [show parseJValueAux (f + 1) (' ' :: '"' :: (jsonEscapeString v ++ '"' :: rest)) =
      (parseJStrAux ((jsonEscapeString v ++ '"' :: rest).length + 1) []
        (jsonEscapeString v ++ '"' :: rest)).map (fun pr => (jstr pr.1, pr.2)) from rfl]
  rw [parseJStrAux_call]
  rfl

/-- One step of the object-member scanner at a comma, by definitional
unfolding. -/
theorem parseJObjTail_comma_step (fuel : Nat) (acc : List (String × JValue))
    (rest : List Char) :
    parseJObjTail (fuel + 1) acc (',' :: rest) =
      (match skipWs rest with
       | '"' :: rest1 =>
         match parseJStrAux (rest1.length + 1) [] rest1 with
         | none => none
         | some (k, rest2) =>
           match skipWs rest2 with
           | ':' :: rest3 =>
             match parseJValueAux fuel rest3 with
             | none => none
             | some (v, rest4) =>
               match skipWs rest4 with
               | '\x7d' :: rest5 => some ((acc.reverse ++ [(k, v)]), rest5)
               | ',' :: rest5 => parseJObjTail fuel ((k, v) :: acc) (',' :: rest5)
               | _ => none
           | _ => none
       | _ => none) := rfl

/-- One object member `"k": "v"` of the submission line, consumed by the
member scanner. -/
theorem parseJObjTail_member (f : Nat) (acc : List (String × JValue))
    (k v rest rest0 : List Char)
    (hws : skipWs rest0 = '"' :: (jsonEscapeString k ++ '"' :: ':' :: ' ' :: '"' ::
      (jsonEscapeString v ++ '"' :: rest))) :
    parseJObjTail (f + 2) acc (',' :: rest0) =
      (match skipWs rest with
       | '\x7d' :: rest5 =>
         some ((acc.reverse ++ [(String.mk k, jstr (String.mk v))]), rest5)
       | ',' :: rest5 =>
         parseJObjTail (f + 1) ((String.mk k, jstr (String.mk v)) :: acc) (',' :: rest5)
       | _ => none) := by
  rw [parseJObjTail_comma_step (f + 1) acc rest0, hws]
  simp only []
  rw [parseJStrAux_call k (':' :: ' ' :: '"' :: (jsonEscapeString v ++ '"' :: rest))]
  simp only []
  rw [show skipWs (':' :: ' ' :: '"' :: (jsonEscapeString v ++ '"' :: rest)) =
      ':' :: ' ' :: '"' :: (jsonEscapeString v ++ '"' :: rest) from rfl]
  simp only []
  rw [parseJValueAux_string f v rest]

/-- Parsing one full submission line
`{"instance_id": "...", "model_name_or_path": "...", "model_patch": "..."}`
recovers the three formatted string values. -/
theorem parse_prediction_line (i m p : String) (f : Nat) :
    parseJValueAux (f + 6)
      ('\x7b' :: '"' :: (jsonEscapeString "instance_id".toList ++ '"' :: ':' :: ' ' :: '"' ::
        (jsonEscapeString i.toList ++ '"' :: ',' :: ' ' :: '"' ::
        (jsonEscapeString "model_name_or_path".toList ++ '"' :: ':' :: ' ' :: '"' ::
        (jsonEscapeString m.toList ++ '"' :: ',' :: ' ' :: '"' ::
        (jsonEscapeString "model_patch".toList ++ '"' :: ':' :: ' ' :: '"' ::
        (jsonEscapeString p.toList ++ ['"', '\x7d']))))))) =
      some (jobj [("instance_id", jstr i), ("model_name_or_path", jstr m),
        ("model_patch", jstr p)], []) := by
  rw [show parseJValueAux (f + 6)
      ('\x7b' :: '"' :: (jsonEscapeString "instance_id".toList ++ '"' :: ':' :: ' ' :: '"' ::
        (jsonEscapeString i.toList ++ '"' :: ',' :: ' ' :: '"' ::
        (jsonEscapeString "model_name_or_path".toList ++ '"' :: ':' :: ' ' :: '"' ::
        (jsonEscapeString m.toList ++ '"' :: ',' :: ' ' :: '"' ::
        (jsonEscapeString "model_patch".toList ++ '"' :: ':' :: ' ' :: '"' ::
        (jsonEscapeString p.toList ++ ['"', '\x7d']))))))) =
      (match parseJObjTail (f + 2 + 2) []
        (',' :: '"' :: (jsonEscapeString "instance_id".toList ++ '"' :: ':' :: ' ' :: '"' ::
          (jsonEscapeString i.toList ++ '"' :: ',' :: ' ' :: '"' ::
          (jsonEscapeString "model_name_or_path".toList ++ '"' :: ':' :: ' ' :: '"' ::
          (jsonEscapeString m.toList ++ '"' :: ',' :: ' ' :: '"' ::
          (jsonEscapeString "model_patch".toList ++ '"' :: ':' :: ' ' :: '"' ::
          (jsonEscapeString p.toList ++ ['"', '\x7d']))))))) with
       | none => none
       | some (fs, rest) => some (jobj fs, rest)) from rfl]
  rw [parseJObjTail_member (f + 2) [] "instance_id".toList i.toList
    (',' :: ' ' :: '"' ::
      (jsonEscapeString "model_name_or_path".toList ++ '"' :: ':' :: ' ' :: '"' ::
      (jsonEscapeString m.toList ++ '"' :: ',' :: ' ' :: '"' ::
      (jsonEscapeString "model_patch".toList ++ '"' :: ':' :: ' ' :: '"' ::
      (jsonEscapeString p.toList ++ ['"', '\x7d'])))))
    ('"' :: (jsonEscapeString "instance_id".toList ++ '"' :: ':' :: ' ' :: '"' ::
      (jsonEscapeString i.toList ++ '"' :: ',' :: ' ' :: '"' ::
      (jsonEscapeString "model_name_or_path".toList ++ '"' :: ':' :: ' ' :: '"' ::
      (jsonEscapeString m.toList ++ '"' :: ',' :: ' ' :: '"' ::
      (jsonEscapeString "model_patch".toList ++ '"' :: ':' :: ' ' :: '"' ::
      (jsonEscapeString p.toList ++ ['"', '\x7d'])))))))
    rfl]
  rw [show skipWs (',' :: ' ' :: '"' ::
      (jsonEscapeString "model_name_or_path".toList ++ '"' :: ':' :: ' ' :: '"' ::
      (jsonEscapeString m.toList ++ '"' :: ',' :: ' ' :: '"' ::
      (jsonEscapeString "model_patch".toList ++ '"' :: ':' :: ' ' :: '"' ::
      (jsonEscapeString p.toList ++ ['"', '\x7d']))))) =
      ',' :: ' ' :: '"' ::
      (jsonEscapeString "model_name_or_path".toList ++ '"' :: ':' :: ' ' :: '"' ::
      (jsonEscapeString m.toList ++ '"' :: ',' :: ' ' :: '"' ::
      (jsonEscapeString "model_patch".toList ++ '"' :: ':' :: ' ' :: '"' ::
      (jsonEscapeString p.toList ++ ['"', '\x7d'])))) from rfl]
  simp only []
  rw [parseJObjTail_member (f + 1)
    [(String.mk "instance_id".toList, jstr (String.mk i.toList))]
    "model_name_or_path".toList m.toList
    (',' :: ' ' :: '"' ::
      (jsonEscapeString "model_patch".toList ++ '"' :: ':' :: ' ' :: '"' ::
      (jsonEscapeString p.toList ++ ['"', '\x7d'])))
    (' ' :: '"' ::
      (jsonEscapeString "model_name_or_path".toList ++ '"' :: ':' :: ' ' :: '"' ::
      (jsonEscapeString m.toList ++ '"' :: ',' :: ' ' :: '"' ::
      (jsonEscapeString "model_patch".toList ++ '"' :: ':' :: ' ' :: '"' ::
      (jsonEscapeString p.toList ++ ['"', '\x7d'])))))
    rfl]
  rw [show skipWs (',' :: ' ' :: '"' ::
      (jsonEscapeString "model_patch".toList ++ '"' :: ':' :: ' ' :: '"' ::
      (jsonEscapeString p.toList ++ ['"', '\x7d']))) =
      ',' :: ' ' :: '"' ::
      (jsonEscapeString "model_patch".toList ++ '"' :: ':' :: ' ' :: '"' ::
      (jsonEscapeString p.toList ++ ['"', '\x7d'])) from rfl]
  simp only []
  rw [parseJObjTail_member f
    [(String.mk "model_name_or_path".toList, jstr (String.mk m.toList)),
     (String.mk "instance_id".toList, jstr (String.mk i.toList))]
    "model_patch".toList p.toList
    ['\x7d']
    (' ' :: '"' ::
      (jsonEscapeString "model_patch".toList ++ '"' :: ':' :: ' ' :: '"' ::
      (jsonEscapeString p.toList ++ ['"', '\x7d'])))
    rfl]
  rfl

theorem dumpsPrediction_strings (i m p : String) :
    dumpsPrediction ⟨jstr i, jstr m, jstr p⟩ = some (predictionLine i m p) := by
  have hflat : dumpsPrediction ⟨jstr i, jstr m, jstr p⟩ =
      some ("\x7b\"instance_id\": \"".toList ++ jsonEscapeString i.toList ++
        "\", \"model_name_or_path\": \"".toList ++ jsonEscapeString m.toList ++
        "\", \"model_patch\": \"".toList ++ jsonEscapeString p.toList ++
        "\"\x7d".toList) := rfl
  rw [hflat, predictionLine]
  simp only [List.append_assoc]
  rfl

theorem parse_predictionLine (i m p : String) (f : Nat) :
    parseJValueAux (f + 6) (predictionLine i m p) =
      some (jobj [("instance_id", jstr i), ("model_name_or_path", jstr m),
        ("model_patch", jstr p)], []) :=
  parse_prediction_line i m p f

theorem nl_not_mem_u_escape (n : Nat) :
    '\n' ∉ '\\' :: 'u' :: hex4Chars n := by
  have h1 : n / 4096 % 16 < 16 := Nat.mod_lt _ (by norm_num)
  have h2 : n / 256 % 16 < 16 := Nat.mod_lt _ (by norm_num)
  have h3 : n / 16 % 16 < 16 := Nat.mod_lt _ (by norm_num)
  have h4 : n % 16 < 16 := Nat.mod_lt _ (by norm_num)
  intro hmem
  simp only [hex4Chars, List.mem_cons, List.not_mem_nil, or_false] at hmem
  rcases hmem with h | h | h | h | h | h
  · exact absurd h (by decide)
  · exact absurd h (by decide)
  · exact hexDigitChar_ne_nl _ h1 h.symm
  · exact hexDigitChar_ne_nl _ h2 h.symm
  · exact hexDigitChar_ne_nl _ h3 h.symm
  · exact hexDigitChar_ne_nl _ h4 h.symm

set_option maxHeartbeats 1000000 in
theorem nl_not_mem_jsonEscapeChar (c : Char) : '\n' ∉ jsonEscapeChar c := by
  have hbounds := char_toNat_bounds c
  rw [jsonEscapeChar]
  split_ifs with h1 h2 h3 h4 h5 h6 h7 h8 h9 h10
  · decide
  · decide
  · decide
  · decide
  · decide
  · decide
  · decide
  · exact nl_not_mem_u_escape c.toNat
  · intro hmem
    simp only [List.mem_cons, List.not_mem_nil, or_false] at hmem
    exact h5 hmem.symm
  · exact nl_not_mem_u_escape c.toNat
  · intro hmem
    rcases List.mem_append.mp hmem with h | h
    · exact nl_not_mem_u_escape (0xD800 + (c.toNat - 0x10000) / 0x400) h
    · exact nl_not_mem_u_escape (0xDC00 + (c.toNat - 0x10000) % 0x400) h

theorem nl_not_mem_jsonEscapeString (s : List Char) : '\n' ∉ jsonEscapeString s := by
  induction s with
  | nil => simp [jsonEscapeString]
  | cons c t ih =>
    have hsplit : jsonEscapeString (c :: t) = jsonEscapeChar c ++ jsonEscapeString t := by
      simp [jsonEscapeString]
    rw [hsplit]
    intro hmem
    rcases List.mem_append.mp hmem with h | h
    · exact nl_not_mem_jsonEscapeChar c h
    · exact ih h

theorem nl_not_mem_predictionLine (i m p : String) : '\n' ∉ predictionLine i m p := by
  intro hmem
  rw [predictionLine] at hmem
  simp only [List.mem_cons, List.mem_append,
    (fun s => iff_false_intro (nl_not_mem_jsonEscapeString s)), false_or, or_false,
    List.not_mem_nil] at hmem
  revert hmem
  decide

theorem splitNl_append_nl (d : List Char) (hd : '\n' ∉ d) (t : List Char) :
    splitNl (d ++ '\n' :: t) = d :: splitNl t := by
  induction d with
  | nil =>
    simp [splitNl]
  | cons c cs ih =>
    have hc : ¬ c = '\n' := fun h => hd (h ▸ List.mem_cons_self c cs)
    have hcs : '\n' ∉ cs := fun h => hd (List.mem_cons_of_mem _ h)
    rw [List.cons_append, splitNl, if_neg hc, ih hcs]

theorem splitNl_ne_nil (s : List Char) : splitNl s ≠ [] := by
  cases s with
  | nil => simp [splitNl]
  | cons c rest =>
    rw [splitNl]
    by_cases h : c = '\n'
    · simp [h]
    · rw [if_neg h]
      rcases hrec : splitNl rest with _ | ⟨l, ls⟩ <;> simp

theorem dropFinalEmpty_cons_of_ne_nil (a : List Char) (l : List (List Char))
    (h : l ≠ []) : dropFinalEmpty (a :: l) = a :: dropFinalEmpty l := by
  cases l with
  | nil => exact absurd rfl h
  | cons b bs => rfl

theorem readLines_join_nl (lines : List (List Char)) (h : ∀ l ∈ lines, '\n' ∉ l) :
    readLines ((lines.map (· ++ ['\n'])).flatten) = lines := by
  induction lines with
  | nil => rfl
  | cons d ds ih =>
    have hd : '\n' ∉ d := h d (List.mem_cons_self d ds)
    have hds : ∀ l ∈ ds, '\n' ∉ l := fun l hl => h l (List.mem_cons_of_mem _ hl)
    rw [List.map_cons, List.flatten_cons, List.append_assoc, List.singleton_append,
      readLines, splitNl_append_nl d hd,
      dropFinalEmpty_cons_of_ne_nil _ _ (splitNl_ne_nil _)]
    rw [show dropFinalEmpty (splitNl ((ds.map (· ++ ['\n'])).flatten)) =
        readLines ((ds.map (· ++ ['\n'])).flatten) from rfl, ih hds]

theorem flatten_nl_getLast (lines : List (List Char)) (h : lines ≠ []) :
    ((lines.map (· ++ ['\n'])).flatten).getLast? = some '\n' := by
  induction lines with
  | nil => exact absurd rfl h
  | cons d ds ih =>
    cases ds with
    | nil =>
      simp only [List.map_cons, List.map_nil, List.flatten_cons, List.flatten_nil,
        List.append_nil]
      exact List.getLast?_concat d
    | cons e es =>
      rw [List.map_cons, List.flatten_cons]
      rw [List.getLast?_append, ih (by simp)]
      rfl

theorem parseJsonString_predictionLine (i m p : String) :
    parseJsonString (String.mk (predictionLine i m p)) =
      .ok (jobj [("instance_id", jstr i), ("model_name_or_path", jstr m),
        ("model_patch", jstr p)]) := by
  have h1 : 1 ≤ (predictionLine i m p).length := by
    rw [predictionLine]
    simp
  rw [parseJsonString]
  rw [show (String.mk (predictionLine i m p)).toList = predictionLine i m p from rfl]
  rw [show 2 * (String.mk (predictionLine i m p)).length + 4 =
      (2 * (predictionLine i m p).length - 2) + 6 from by
    rw [show (String.mk (predictionLine i m p)).length =
        (predictionLine i m p).length from rfl]
    omega]
  rw [parse_predictionLine i m p _]
  rfl

/-- The Formatter on string-field records with truthy `instance_id` and
`patch`: every record converts, in order. -/
theorem transform_records (rs : List (String × String))
    (h : ∀ r ∈ rs, r.1 ≠ "" ∧ r.2 ≠ "") :
    transform_to_predictions "gpt-4" (rs.map fun r =>
        jobj (mkRecordFields r.1 r.2 "[\"t1\"]" "[]")) =
      .ok (rs.map fun r => ⟨jstr r.1, jstr "gpt-4", jstr r.2⟩) := by
  induction rs with
  | nil => rfl
  | cons r t ih =>
    obtain ⟨hi, hp⟩ := h r (List.mem_cons_self r t)
    have ht := ih fun x hx => h x (List.mem_cons_of_mem _ hx)
    rw [List.map_cons, transform_to_predictions]
    rw [show _transform_single_item "gpt-4" (jobj (mkRecordFields r.1 r.2 "[\"t1\"]" "[]")) =
        (if !pythonTruthy (jstr r.1) || !pythonTruthy (jstr r.2) then
          Except.ok none
        else Except.ok (some ⟨jstr r.1, jstr "gpt-4", jstr r.2⟩)) from rfl]
    have hcond : (!pythonTruthy (jstr r.1) || !pythonTruthy (jstr r.2)) = false := by
      simp [pythonTruthy, hi, hp]
    rw [hcond]
    simp only [Bool.false_eq_true, if_false, ht, List.map_cons]

/-- Writing the formatted entries produces exactly the newline-terminated
serialized lines, in order. -/
theorem write_predictions_file_strings (rs : List (String × String)) :
    write_predictions_file (rs.map fun r => ⟨jstr r.1, jstr "gpt-4", jstr r.2⟩) =
      some (((rs.map fun r => predictionLine r.1 "gpt-4" r.2).map
        (· ++ ['\n'])).flatten) := by
  have hmapM : (rs.map fun r =>
        (⟨jstr r.1, jstr "gpt-4", jstr r.2⟩ : PredictionEntry)).mapM dumpsPrediction =
      some (rs.map fun r => predictionLine r.1 "gpt-4" r.2) := by
    induction rs with
    | nil => rfl
    | cons r t ih =>
      rw [List.map_cons, List.map_cons, List.mapM_cons, dumpsPrediction_strings, ih]
      rfl
  rw [write_predictions_file, hmapM]
  rfl

/-- C9: round-trip of the submission file.  Formatting valid records to
submission entries and writing them with the Formatter produces one
serialized line per entry, newline-terminated, in input order; reading the
file back line by line and parsing each line as JSON reproduces exactly the
`instance_id`, the model identifier and the patch that were formatted. -/
theorem c9_round_trip (records : List (String × String))
    (h : ∀ r ∈ records, r.1 ≠ "" ∧ r.2 ≠ "") :
    ∃ preds content,
      transform_to_predictions "gpt-4" (records.map fun r =>
        jobj (mkRecordFields r.1 r.2 "[\"t1\"]" "[]")) = .ok preds ∧
      preds = records.map (fun r =>
        PredictionEntry.mk (jstr r.1) (jstr "gpt-4") (jstr r.2)) ∧
      write_predictions_file preds = some content ∧
      (readLines content).map (fun line => parseJsonString (String.mk line)) =
        records.map (fun r => .ok (jobj
          [("instance_id", jstr r.1), ("model_name_or_path", jstr "gpt-4"),
           ("model_patch", jstr r.2)])) ∧
      (records ≠ [] → content.getLast? = some '\n') := by
  refine ⟨_, _, transform_records records h, rfl,
    write_predictions_file_strings records, ?_, ?_⟩
  · rw [readLines_join_nl _ (by
      intro l hl
      obtain ⟨r, -, rfl⟩ := List.mem_map.mp hl
      exact nl_not_mem_predictionLine r.1 "gpt-4" r.2)]
    rw [List.map_map]
    refine List.map_congr_left fun r _ => ?_
    exact parseJsonString_predictionLine r.1 "gpt-4" r.2
  · intro hne
    exact flatten_nl_getLast _ (by simpa using hne)

/-- C9 witness: the single record `("X", "diff")`. -/
theorem c9_witness :
    ∃ preds content,
      transform_to_predictions "gpt-4" ((([("X", "diff")] : List (String × String))).map
        fun r => jobj (mkRecordFields r.1 r.2 "[\"t1\"]" "[]")) = .ok preds ∧
      preds = ([("X", "diff")] : List (String × String)).map (fun r =>
        PredictionEntry.mk (jstr r.1) (jstr "gpt-4") (jstr r.2)) ∧
      write_predictions_file preds = some content ∧
      (readLines content).map (fun line => parseJsonString (String.mk line)) =
        ([("X", "diff")] : List (String × String)).map (fun r => .ok (jobj
          [("instance_id", jstr r.1), ("model_name_or_path", jstr "gpt-4"),
           ("model_patch", jstr r.2)])) ∧
      (([("X", "diff")] : List (String × String)) ≠ [] →
        content.getLast? = some '\n') :=
  c9_round_trip [("X", "diff")] (by decide)
